import Mathlib

/-!
# Database bootstrap of wuzapi (`db.go`)

A shallow embedding of `db.go`: `getDatabaseConfig`, `initializePostgres`,
`initializeSQLite` and `InitializeDatabase`, together with the library
operations they call (`os.Getenv`, `filepath.Join`, `fmt.Sprintf`,
`fmt.Errorf`, `os.MkdirAll`, `sqlx.Open`, the `database/sql` pool setters,
`Ping`, and the connection-string parser `parseOpts` of the driver `lib/pq`).

Conventions.
* A Go `string` is a Lean `String`.  The path operations only inspect the
  bytes `/` and `.`, which in UTF-8 never occur inside a multi-byte
  sequence, so working on characters agrees with Go's bytewise code on
  every valid UTF-8 string.
* `filepath` is the Unix flavour: `Separator = '/'`, no volume names,
  `FromSlash` is the identity.
* The outside world (environment, file system, drivers) is a record of
  outcome functions, `World`.  Each of them is consulted at most once in a
  run of `InitializeDatabase`, in a fixed order, so letting the outcome
  depend on the arguments only loses no behaviour.
* Every run returns the Go result pair together with the list of library
  calls it made, in order.
-/

namespace Wuzapi

/-! ## `path/filepath` (Unix) -/

/-- Go: `os.IsPathSeparator(c)` on Unix, `PathSeparator == c`. -/
def isPathSeparator (c : Char) : Bool := c == '/'

/-- The state of the loop of `filepath.Clean`: `out` is the written part of
the `lazybuf` (`out.buf[:out.w]`, so `out.w = out.length`), `dotdot` the
index where `..` must stop. -/
structure CleanState where
  out : List Char
  dotdot : Nat
  deriving DecidableEq, Repr

/-- Go, inside the `..` case of `Clean`:
`for out.w > dotdot && !os.IsPathSeparator(out.index(out.w)) { out.w-- }`.
The argument is the current `out.w`, the result the final `out.w`; `buf`
still holds the bytes beyond `out.w`. -/
def backtrack (buf : List Char) (dotdot : Nat) : Nat → Nat
  | 0 => 0
  | w + 1 =>
    if dotdot < w + 1 && !isPathSeparator (buf.getD (w + 1) '/') then
      backtrack buf dotdot w
    else
      w + 1

/-- Go, the `..` case of `Clean` after `r += 2`:
```
switch {
case out.w > dotdot:
    out.w--
    for out.w > dotdot && !os.IsPathSeparator(out.index(out.w)) { out.w-- }
case !rooted:
    if out.w > 0 { out.append(Separator) }
    out.append('.'); out.append('.')
    dotdot = out.w
}
``` -/
def dotdotStep (rooted : Bool) (st : CleanState) : CleanState :=
  if st.dotdot < st.out.length then
    { out := st.out.take (backtrack st.out st.dotdot (st.out.length - 1)),
      dotdot := st.dotdot }
  else if !rooted then
    let out1 := if 0 < st.out.length then st.out ++ ['/'] else st.out
    let out2 := out1 ++ ['.', '.']
    { out := out2, dotdot := out2.length }
  else
    st

/-- Go, the default case of `Clean` (a real path element):
```
if rooted && out.w != 1 || !rooted && out.w != 0 { out.append(Separator) }
for ; r < n && !os.IsPathSeparator(path[r]); r++ { out.append(path[r]) }
```
`rest` is `path[r:]`; the new `path[r:]` is `rest.dropWhile (!isPathSeparator ·)`. -/
def elementStep (rooted : Bool) (rest : List Char) (st : CleanState) : CleanState :=
  let out1 :=
    if (rooted && st.out.length != 1) || (!rooted && st.out.length != 0) then
      st.out ++ ['/']
    else st.out
  { out := out1 ++ rest.takeWhile (fun c => !isPathSeparator c),
    dotdot := st.dotdot }

/-- Whether `path[r+1:]` is empty or starts with a separator:
`r+1 == n || os.IsPathSeparator(path[r+1])`. -/
def endOrSeparator : List Char → Bool
  | [] => true
  | c :: _ => isPathSeparator c

/-- Go: the loop `for r < n { switch { ... } }` of `filepath.Clean`.  The
list is `path[r:]`; the first argument bounds the number of iterations
(every iteration advances `r`, so `n` iterations are enough). -/
def cleanLoop (rooted : Bool) : Nat → List Char → CleanState → CleanState
  | 0, _, st => st
  | _ + 1, [], st => st
  | fuel + 1, c :: rest, st =>
    if isPathSeparator c then
      -- empty path element
      cleanLoop rooted fuel rest st
    else if c = '.' ∧ endOrSeparator rest then
      -- . element
      cleanLoop rooted fuel rest st
    else if c = '.' ∧ rest.head? = some '.' ∧ endOrSeparator rest.tail then
      -- .. element: remove to last separator
      cleanLoop rooted fuel rest.tail (dotdotStep rooted st)
    else
      -- real path element
      cleanLoop rooted fuel ((c :: rest).dropWhile (fun c => !isPathSeparator c))
        (elementStep rooted (c :: rest) st)

/-- Go: `filepath.Clean` on a byte sequence (Unix: `volLen = 0`). -/
def cleanChars (path : List Char) : List Char :=
  match path with
  | [] => ['.']                                   -- return originalPath + "."
  | c :: rest =>
    let rooted := isPathSeparator c
    let st :=
      if rooted then cleanLoop rooted path.length rest { out := ['/'], dotdot := 1 }
      else cleanLoop rooted path.length path { out := [], dotdot := 0 }
    -- Turn empty string into "."
    if st.out.length = 0 then ['.'] else st.out

/-- Go: `filepath.Clean(path)`. -/
def Clean (path : String) : String := ⟨cleanChars path.data⟩

/-- Go: `strings.Join(elems, sep)`. -/
def stringsJoin : List String → String → String
  | [], _ => ""
  | [a], _ => a
  | a :: b :: rest, sep => a ++ sep ++ stringsJoin (b :: rest) sep

/-- Go: `filepath.Join(elem...)`:
```
for i, e := range elem {
    if e != "" { return Clean(strings.Join(elem[i:], string(Separator))) }
}
return ""
``` -/
def Join : List String → String
  | [] => ""
  | e :: es => if e ≠ "" then Clean (stringsJoin (e :: es) "/") else Join es

/-- A real path element: not empty, without separator, and neither `.` nor `..`. -/
def plainElement (e : List Char) : Prop :=
  e ≠ [] ∧ (∀ c ∈ e, isPathSeparator c = false) ∧ e ≠ ['.'] ∧ e ≠ ['.', '.']

/-- The state of `filepath.Clean` before its loop. -/
def initState (r : Bool) : CleanState :=
  if r then { out := ['/'], dotdot := 1 } else { out := [], dotdot := 0 }

/-- The states the loop of `filepath.Clean` can reach: from the initial state
by appending `..` (only while nothing else was written, on a path that is not
rooted) and by appending real elements. -/
inductive Built (r : Bool) : CleanState → Prop where
  | init : Built r (initState r)
  | dots (st : CleanState) : Built r st → r = false → st.out.length = st.dotdot →
      Built r (dotdotStep r st)
  | elem (st : CleanState) (e : List Char) : Built r st → plainElement e →
      Built r (elementStep r e st)

/-! ## Errors (`error`, `fmt.Errorf`) -/

/-- A Go `error` value: a leaf error with its message, or the `*fmt.wrapError`
that `fmt.Errorf` builds for a format with one `%w`. -/
inductive GoError where
  | errorString (s : String)
  | wrapError (msg : String) (err : GoError)
  deriving DecidableEq, Repr

/-- Go: the method `Error() string`. -/
def GoError.Error : GoError → String
  | .errorString s => s
  | .wrapError msg _ => msg

/-- Go: the method `Unwrap() error` (`nil` for a leaf error). -/
def GoError.Unwrap : GoError → Option GoError
  | .errorString _ => none
  | .wrapError _ err => some err

/-- Go: `fmt.Errorf(format + "%w", err)` for a `format` without verbs and a
non-nil `err`: the message is `format` followed by `err.Error()`, and the
result wraps `err`. -/
def Errorf (format : String) (err : GoError) : GoError :=
  .wrapError (format ++ err.Error) err

/-! ## `database/sql` and `sqlx` -/

/-- Go: `time.Minute` as a `time.Duration` (nanoseconds). -/
def Minute : Int := 60 * 1000000000

/-- The handle `*sqlx.DB`, reduced to what `db.go` sets: the driver name and
data source given to `sqlx.Open`, and the pool fields `maxOpen`,
`maxIdleCount` and `maxLifetime` of the embedded `sql.DB`. -/
structure DB where
  driverName : String
  dataSourceName : String
  maxOpen : Int
  maxIdleCount : Int
  maxLifetime : Int
  deriving DecidableEq, Repr

/-- The handle of a successful `sqlx.Open(driverName, dataSourceName)`: a new
`sql.DB` has all three pool fields zero. -/
def DB.new (driverName dataSourceName : String) : DB :=
  { driverName := driverName, dataSourceName := dataSourceName,
    maxOpen := 0, maxIdleCount := 0, maxLifetime := 0 }

/-- Go: `db.maxIdleConnsLocked()`, with `defaultMaxIdleConns = 2`. -/
def DB.maxIdleConnsLocked (db : DB) : Int :=
  if db.maxIdleCount = 0 then 2
  else if db.maxIdleCount < 0 then 0
  else db.maxIdleCount

/-- Go: `db.SetMaxIdleConns(n)`. -/
def DB.SetMaxIdleConns (db : DB) (n : Int) : DB :=
  let db1 : DB := { db with maxIdleCount := if 0 < n then n else -1 }
  -- Make sure maxIdle doesn't exceed maxOpen
  if 0 < db1.maxOpen ∧ db1.maxOpen < db1.maxIdleConnsLocked then
    { db1 with maxIdleCount := db1.maxOpen }
  else db1

/-- Go: `db.SetMaxOpenConns(n)`. -/
def DB.SetMaxOpenConns (db : DB) (n : Int) : DB :=
  let db1 : DB := { db with maxOpen := if n < 0 then 0 else n }
  let syncMaxIdle : Bool := decide (0 < db1.maxOpen ∧ db1.maxOpen < db1.maxIdleConnsLocked)
  if syncMaxIdle then db1.SetMaxIdleConns n else db1

/-- Go: `db.SetConnMaxLifetime(d)`. -/
def DB.SetConnMaxLifetime (db : DB) (d : Int) : DB :=
  { db with maxLifetime := if d < 0 then 0 else d }

/-! ## `github.com/lib/pq`: reading the connection string

The driver that `db.go` registers under the name `postgres` reads the string
given to `sqlx.Open` with `parseOpts` (`conn.go`): pairs `key=value` separated
by white space, a later pair for a key replacing an earlier one. -/

/-- Go: `unicode.IsSpace(r)`: in Latin-1 the runes `\t`, `\n`, `\v`, `\f`,
`\r`, space, U+0085 and U+00A0; beyond it the property `White_Space`. -/
def isSpace (r : Char) : Bool :=
  if r.toNat ≤ 0xFF then
    r.toNat == 0x09 || r.toNat == 0x0A || r.toNat == 0x0B || r.toNat == 0x0C
      || r.toNat == 0x0D || r.toNat == 0x20 || r.toNat == 0x85 || r.toNat == 0xA0
  else
    r.toNat == 0x1680 || (decide (0x2000 ≤ r.toNat) && decide (r.toNat ≤ 0x200A))
      || r.toNat == 0x2028 || r.toNat == 0x2029 || r.toNat == 0x202F
      || r.toNat == 0x205F || r.toNat == 0x3000

/-- Driver `lib/pq`: `(*scanner).Next`, on the runes not yet read: the next rune and
`true`, or `0, false` at the end of the text. -/
def scannerNext : List Char → (Char × Bool) × List Char
  | [] => ((Char.ofNat 0, false), [])
  | r :: rest => ((r, true), rest)

/-- Driver `lib/pq`: `(*scanner).SkipSpaces`: the next rune that is no white space, or
`0, false` at the end of the text. -/
def scannerSkipSpaces : List Char → (Char × Bool) × List Char
  | [] => ((Char.ofNat 0, false), [])
  | r :: rest => if isSpace r then scannerSkipSpaces rest else ((r, true), rest)

/-- Driver `lib/pq`, in `parseOpts`, "Scan the key":
```
for !unicode.IsSpace(r) && r != '=' {
    keyRunes = append(keyRunes, r)
    if r, ok = s.Next(); !ok { break }
}
```
The result is `keyRunes`, the current `r` and `ok`, and the runes not yet read. -/
def scanKey : Char → List Char → List Char → List Char × (Char × Bool) × List Char
  | r, rest, keyRunes =>
    if !isSpace r && r != '=' then
      match rest with
      | [] => (keyRunes ++ [r], (Char.ofNat 0, false), [])
      | c :: t => scanKey c t (keyRunes ++ [r])
    else (keyRunes, (r, true), rest)

/-- Driver `lib/pq`, in `parseOpts`, a value that does not start with a quote:
```
for !unicode.IsSpace(r) {
    if r == '\\' {
        if r, ok = s.Next(); !ok { return fmt.Errorf(`missing character after backslash`) }
    }
    valRunes = append(valRunes, r)
    if r, ok = s.Next(); !ok { break }
}
```
The result is `none` for the error, else `valRunes` and the runes not yet read. -/
def scanValue : Char → List Char → List Char → Option (List Char × List Char)
  | r, rest, valRunes =>
    if isSpace r then some (valRunes, rest)
    else if r = '\\' then
      match rest with
      | [] => none
      | c :: t =>
        match t with
        | [] => some (valRunes ++ [c], [])
        | d :: u => scanValue d u (valRunes ++ [c])
    else
      match rest with
      | [] => some (valRunes ++ [r], [])
      | c :: t => scanValue c t (valRunes ++ [r])

/-- Driver `lib/pq`, in `parseOpts`, a quoted value (the label `quote`):
```
for {
    if r, ok = s.Next(); !ok { return fmt.Errorf(`unterminated quoted string literal in connection string`) }
    switch r {
    case '\'': break quote
    case '\\': r, _ = s.Next(); fallthrough
    default: valRunes = append(valRunes, r)
    }
}
```
The result is `none` for the error, else `valRunes` and the runes not yet read. -/
def scanQuoted : List Char → List Char → Option (List Char × List Char)
  | [], _ => none
  | r :: rest, valRunes =>
    if r = '\'' then some (valRunes, rest)
    else if r = '\\' then
      match rest with
      | [] => none
      | c :: t => scanQuoted t (valRunes ++ [c])
    else scanQuoted rest (valRunes ++ [r])

/-- Driver `lib/pq`: `type values map[string]string`, as a list of pairs with distinct keys. -/
abbrev values := List (String × String)

/-- Go: `o[k] = v`. -/
def values.set : values → String → String → values
  | [], k, v => [(k, v)]
  | (k1, v1) :: rest, k, v => if k1 = k then (k, v) :: rest else (k1, v1) :: values.set rest k v

/-- Go: `v, ok := o[k]`. -/
def values.get : values → String → Option String
  | [], _ => none
  | (k1, v1) :: rest, k => if k1 = k then some v1 else values.get rest k

/-- The errors of `parseOpts`, and `outOfFuel` for a loop bound that is too small. -/
inductive ParseError where
  | missingEquals (keyRunes : String)
  | missingAfterBackslash
  | unterminatedQuote
  | outOfFuel
  deriving DecidableEq, Repr

/-- Driver `lib/pq`: the loop `for { ... }` of `parseOpts`, on the runes not yet read:
the map `o` as the loop leaves it and the error returned (`none` is `nil`).
The first argument bounds the number of iterations. -/
def parseLoop : Nat → List Char → values → values × Option ParseError
  | 0, _, o => (o, some .outOfFuel)
  | fuel + 1, s, o =>
    match scannerSkipSpaces s with
    | ((_, false), _) => (o, none)
    | ((r, true), s1) =>
      -- Scan the key
      match scanKey r s1 [] with
      | (keyRunes, (r, ok), s2) =>
        -- Skip any whitespace if we're not at the = yet
        match (if r != '=' then scannerSkipSpaces s2 else ((r, ok), s2)) with
        | ((r, ok), s3) =>
          -- The current character should be =
          if r != '=' || !ok then (o, some (.missingEquals ⟨keyRunes⟩))
          else
            -- Skip any whitespace after the =
            match scannerSkipSpaces s3 with
            | ((_, false), _) => (o.set ⟨keyRunes⟩ "", none)
            | ((r, true), s4) =>
              if r != '\'' then
                match scanValue r s4 [] with
                | none => (o, some .missingAfterBackslash)
                | some (valRunes, s5) => parseLoop fuel s5 (o.set ⟨keyRunes⟩ ⟨valRunes⟩)
              else
                match scanQuoted s4 [] with
                | none => (o, some .unterminatedQuote)
                | some (valRunes, s5) => parseLoop fuel s5 (o.set ⟨keyRunes⟩ ⟨valRunes⟩)

/-- Driver `lib/pq`: `func parseOpts(name string, o values) error`, the parser of the
connection string: the map `o` after the call and the error returned.  Every
iteration of the loop reads at least one rune, so `len(name) + 1` iterations
are enough. -/
def parseOpts (name : String) (o : values) : values × Option ParseError :=
  parseLoop (name.length + 1) name.data o

/-! ## The outside world and the record of calls -/

/-- The outside world.  `getenv` is `os.Getenv` (the empty string for an unset
variable); the other three give the `error` result (`none` is `nil`) of
`os.MkdirAll(path, perm)`, of `sqlx.Open(driverName, dataSourceName)` and of
`db.Ping()`. -/
structure World where
  getenv : String → String
  mkdirAll : String → Nat → Option GoError
  sqlxOpen : String → String → Option GoError
  ping : DB → Option GoError

/-- A library call with an effect made by `db.go`.  `ping` carries the handle
as it is when `Ping` is called. -/
inductive Call where
  | mkdirAll (path : String) (perm : Nat)
  | sqlxOpen (driverName dataSourceName : String)
  | setMaxOpenConns (n : Int)
  | setMaxIdleConns (n : Int)
  | setConnMaxLifetime (d : Int)
  | ping (db : DB)
  deriving DecidableEq, Repr

/-- The result of a run: the Go pair `(*sqlx.DB, error)` (`none` is `nil`) and
the calls made, in order. -/
structure Run where
  db : Option DB
  err : Option GoError
  calls : List Call
  deriving DecidableEq, Repr

/-! ## `db.go` -/

/-- Go: `type DatabaseConfig struct` (`Type_` is the field `Type`). -/
structure DatabaseConfig where
  Type_ : String := ""
  Host : String := ""
  Port : String := ""
  User : String := ""
  Password : String := ""
  Name : String := ""
  Path : String := ""
  deriving DecidableEq, Repr

/-- Go: `func getDatabaseConfig(exPath string) DatabaseConfig`. -/
def getDatabaseConfig (w : World) (exPath : String) : DatabaseConfig :=
  -- Check for PostgreSQL configuration
  let dbUser := w.getenv "DB_USER"
  let dbPassword := w.getenv "DB_PASSWORD"
  let dbName := w.getenv "DB_NAME"
  let dbHost := w.getenv "DB_HOST"
  let dbPort := w.getenv "DB_PORT"
  -- If all PostgreSQL configs are present, use PostgreSQL
  if dbUser ≠ "" ∧ dbPassword ≠ "" ∧ dbName ≠ "" ∧ dbHost ≠ "" ∧ dbPort ≠ "" then
    { Type_ := "postgres",
      Host := dbHost,
      Port := dbPort,
      User := dbUser,
      Password := dbPassword,
      Name := dbName }
  else
    -- Default to SQLite
    { Type_ := "sqlite",
      Path := Join [exPath, "dbdata"] }

/-- Go: the `dsn` of `initializePostgres`,
`fmt.Sprintf("user=%s password=%s dbname=%s host=%s port=%s sslmode=disable connect_timeout=10", config.User, config.Password, config.Name, config.Host, config.Port)`. -/
def postgresDSN (config : DatabaseConfig) : String :=
  "user=" ++ config.User ++ " password=" ++ config.Password ++ " dbname=" ++ config.Name
    ++ " host=" ++ config.Host ++ " port=" ++ config.Port
    ++ " sslmode=disable connect_timeout=10"

/-- Go: `func initializePostgres(config DatabaseConfig) (*sqlx.DB, error)`. -/
def initializePostgres (w : World) (config : DatabaseConfig) : Run :=
  let dsn := postgresDSN config
  match w.sqlxOpen "postgres" dsn with
  | some err =>
    { db := none, err := some (Errorf "failed to open postgres connection: " err),
      calls := [.sqlxOpen "postgres" dsn] }
  | none =>
    -- Set connection pool settings for better performance
    let db := ((DB.new "postgres" dsn).SetMaxOpenConns 10).SetMaxIdleConns 5
    let db := db.SetConnMaxLifetime (30 * Minute)
    let calls : List Call :=
      [.sqlxOpen "postgres" dsn, .setMaxOpenConns 10, .setMaxIdleConns 5,
       .setConnMaxLifetime (30 * Minute), .ping db]
    match w.ping db with
    | some err =>
      { db := none, err := some (Errorf "failed to ping postgres database: " err),
        calls := calls }
    | none => { db := some db, err := none, calls := calls }

/-- Go: the data source of `initializeSQLite`,
`dbPath+"?_pragma=foreign_keys(1)&_busy_timeout=3000&_journal_mode=WAL"` with
`dbPath := filepath.Join(config.Path, "users.db")`. -/
def sqliteDSN (config : DatabaseConfig) : String :=
  let dbPath := Join [config.Path, "users.db"]
  dbPath ++ "?_pragma=foreign_keys(1)&_busy_timeout=3000&_journal_mode=WAL"

/-- Go: `func initializeSQLite(config DatabaseConfig) (*sqlx.DB, error)`. -/
def initializeSQLite (w : World) (config : DatabaseConfig) : Run :=
  -- Ensure dbdata directory exists
  match w.mkdirAll config.Path 0o751 with
  | some err =>
    { db := none, err := some (Errorf "could not create dbdata directory: " err),
      calls := [.mkdirAll config.Path 0o751] }
  | none =>
    let dsn := sqliteDSN config
    match w.sqlxOpen "sqlite" dsn with
    | some err =>
      { db := none, err := some (Errorf "failed to open sqlite database: " err),
        calls := [.mkdirAll config.Path 0o751, .sqlxOpen "sqlite" dsn] }
    | none =>
      -- Set connection pool settings for better performance
      let db := ((DB.new "sqlite" dsn).SetMaxOpenConns 1).SetMaxIdleConns 1
      let db := db.SetConnMaxLifetime (30 * Minute)
      let calls : List Call :=
        [.mkdirAll config.Path 0o751, .sqlxOpen "sqlite" dsn, .setMaxOpenConns 1,
         .setMaxIdleConns 1, .setConnMaxLifetime (30 * Minute), .ping db]
      match w.ping db with
      | some err =>
        { db := none, err := some (Errorf "failed to ping sqlite database: " err),
          calls := calls }
      | none => { db := some db, err := none, calls := calls }

/-- Go: `func InitializeDatabase(exPath string) (*sqlx.DB, error)`. -/
def InitializeDatabase (w : World) (exPath : String) : Run :=
  let config := getDatabaseConfig w exPath
  if config.Type_ = "postgres" then
    initializePostgres w config
  else
    initializeSQLite w config

/-! ## Concrete worlds -/

/-- An environment given as a list of `NAME=value` pairs; `os.Getenv` on it. -/
def lookupEnv (vars : List (String × String)) (name : String) : String :=
  match vars.find? (fun kv => kv.1 == name) with
  | some kv => kv.2
  | none => ""

/-- A world with the given environment in which every call succeeds. -/
def World.ok (vars : List (String × String)) : World :=
  { getenv := lookupEnv vars,
    mkdirAll := fun _ _ => none,
    sqlxOpen := fun _ _ => none,
    ping := fun _ => none }

/-- The example environment of the specification. -/
def pgVars : List (String × String) :=
  [("DB_USER", "a"), ("DB_PASSWORD", "b"), ("DB_NAME", "c"),
   ("DB_HOST", "localhost"), ("DB_PORT", "5432")]

/-- A configuration whose `User` carries the text ` password=b`. -/
def configUserInjected : DatabaseConfig :=
  { Type_ := "postgres", Host := "h", Port := "5432", User := "a password=b",
    Password := "c", Name := "n" }

/-- A configuration whose `Password` carries the text ` password=c`. -/
def configPasswordInjected : DatabaseConfig :=
  { Type_ := "postgres", Host := "h", Port := "5432", User := "a",
    Password := "b password=c", Name := "n" }

/-- A configuration whose `Password` carries the text ` user=admin`. -/
def configOverride : DatabaseConfig :=
  { Type_ := "postgres", Host := "h", Port := "5432", User := "a",
    Password := "b user=admin", Name := "n" }

/-- A configuration whose `Port` carries the text ` application_name=x`. -/
def configIntroduce : DatabaseConfig :=
  { Type_ := "postgres", Host := "h", Port := "5432 application_name=x", User := "a",
    Password := "b", Name := "n" }

/-- A configuration whose values carry no white space. -/
def configPlain : DatabaseConfig :=
  { Type_ := "postgres", Host := "h", Port := "5432", User := "a",
    Password := "b", Name := "n" }

/-! ## Lemmas on `filepath.Clean` -/

theorem cleanLoop_nil (r : Bool) (f : Nat) (st : CleanState) :
    cleanLoop r f [] st = st := by
  cases f <;> rfl

theorem endOrSeparator_append (a b : List Char) :
    endOrSeparator (a ++ '/' :: b) = endOrSeparator a := by
  cases a <;> simp [endOrSeparator, isPathSeparator]

theorem dropWhile_length_le (q : Char → Bool) (l : List Char) :
    (l.dropWhile q).length ≤ l.length := by
  induction l with
  | nil => simp
  | cons x xs ih =>
    simp only [List.dropWhile_cons]
    split
    · simp; omega
    · simp

/-- Fuel beyond the length of the remaining input does not change the loop. -/
theorem cleanLoop_fuel (r : Bool) :
    ∀ (f g : Nat) (input : List Char) (st : CleanState),
      input.length ≤ f → input.length ≤ g →
      cleanLoop r f input st = cleanLoop r g input st := by
  intro f
  induction f with
  | zero =>
    intro g input st hf _
    have : input = [] := List.length_eq_zero.mp (Nat.le_zero.mp hf)
    subst this
    simp [cleanLoop_nil]
  | succ f ih =>
    intro g input st hf hg
    cases input with
    | nil => simp [cleanLoop_nil]
    | cons c rest =>
      cases g with
      | zero => simp at hg
      | succ g =>
        simp only [List.length_cons, Nat.add_le_add_iff_right] at hf hg
        have htail : rest.tail.length ≤ rest.length := by simp
        simp only [cleanLoop]
        split
        · exact ih g rest st hf hg
        · split
          · exact ih g rest st hf hg
          · split
            · exact ih g _ _ (by omega) (by omega)
            · rename_i hsep _ _
              have hc : (!isPathSeparator c) = true := by simpa using hsep
              have hd := dropWhile_length_le (fun c => !isPathSeparator c) rest
              have hdrop : List.dropWhile (fun c => !isPathSeparator c) (c :: rest)
                  = List.dropWhile (fun c => !isPathSeparator c) rest := by
                simp [List.dropWhile_cons, hsep]
              rw [hdrop]
              exact ih g _ _ (by omega) (by omega)

theorem takeWhile_append_sep (a b : List Char) :
    (a ++ '/' :: b).takeWhile (fun c => !isPathSeparator c)
      = a.takeWhile (fun c => !isPathSeparator c) := by
  induction a with
  | nil => simp [isPathSeparator]
  | cons x xs ih =>
    simp only [List.cons_append, List.takeWhile_cons]
    split <;> simp [ih]

theorem dropWhile_append_sep (a b : List Char) :
    (a ++ '/' :: b).dropWhile (fun c => !isPathSeparator c)
      = a.dropWhile (fun c => !isPathSeparator c) ++ '/' :: b := by
  induction a with
  | nil => simp [isPathSeparator]
  | cons x xs ih =>
    simp only [List.cons_append, List.dropWhile_cons]
    split <;> simp [ih]

theorem elementStep_append_sep (r : Bool) (a b : List Char) (st : CleanState) :
    elementStep r (a ++ '/' :: b) st = elementStep r a st := by
  simp only [elementStep, takeWhile_append_sep]

theorem cleanLoop_cons (r : Bool) (f : Nat) (c : Char) (rest : List Char) (st : CleanState) :
    cleanLoop r (f + 1) (c :: rest) st =
      if isPathSeparator c then cleanLoop r f rest st
      else if c = '.' ∧ endOrSeparator rest then cleanLoop r f rest st
      else if c = '.' ∧ rest.head? = some '.' ∧ endOrSeparator rest.tail then
        cleanLoop r f rest.tail (dotdotStep r st)
      else
        cleanLoop r f ((c :: rest).dropWhile (fun c => !isPathSeparator c))
          (elementStep r (c :: rest) st) := rfl

/-- The loop on `a ++ "/" ++ b` first runs as on `a` alone, then goes on from
the state reached with `"/" ++ b`. -/
theorem cleanLoop_append_sep (r : Bool) (b : List Char) :
    ∀ (f : Nat) (a : List Char) (st : CleanState),
      a.length + 1 + b.length ≤ f →
      cleanLoop r f (a ++ '/' :: b) st = cleanLoop r f ('/' :: b) (cleanLoop r f a st) := by
  intro f
  induction f with
  | zero => intro a st h; omega
  | succ f ih =>
    intro a st h
    cases a with
    | nil => simp [cleanLoop_nil]
    | cons c rest =>
      simp only [List.length_cons] at h
      have hb : ∀ X, cleanLoop r (f + 1) ('/' :: b) X = cleanLoop r f ('/' :: b) X :=
        fun X => cleanLoop_fuel r _ _ _ _ (by simp; omega) (by simp; omega)
      rw [hb, List.cons_append, cleanLoop_cons, cleanLoop_cons, endOrSeparator_append]
      by_cases h1 : isPathSeparator c = true
      · rw [if_pos h1, if_pos h1]
        exact ih rest st (by omega)
      · rw [if_neg h1, if_neg h1]
        by_cases h2 : c = '.' ∧ endOrSeparator rest = true
        · rw [if_pos h2, if_pos h2]
          exact ih rest st (by omega)
        · rw [if_neg h2, if_neg h2]
          cases rest with
          | nil =>
            have h3 : ¬ (c = '.' ∧ ([] ++ '/' :: b).head? = some '.'
                ∧ endOrSeparator ([] ++ '/' :: b).tail = true) := by
              simp
            have h3b : ¬ (c = '.' ∧ ([] : List Char).head? = some '.'
                ∧ endOrSeparator ([] : List Char).tail = true) := by
              simp
            rw [if_neg h3, if_neg h3b, ← List.cons_append, dropWhile_append_sep,
              elementStep_append_sep]
            have hc : (!isPathSeparator c) = true := by simpa using h1
            have hdrop : List.dropWhile (fun c => !isPathSeparator c) [c] = [] := by
              simp [List.dropWhile_cons, h1]
            rw [hdrop]
            simpa using ih [] (elementStep r [c] st) (by simp; omega)
          | cons d rest2 =>
            have e1 : ((d :: rest2) ++ '/' :: b).head? = (d :: rest2).head? := by simp
            have e2 : ((d :: rest2) ++ '/' :: b).tail = rest2 ++ '/' :: b := by simp
            rw [e1, e2, endOrSeparator_append, List.tail_cons]
            by_cases h3 : c = '.' ∧ (d :: rest2).head? = some '.' ∧ endOrSeparator rest2 = true
            · rw [if_pos h3, if_pos h3]
              exact ih rest2 _ (by simp at h; omega)
            · rw [if_neg h3, if_neg h3, ← List.cons_append,
                dropWhile_append_sep, elementStep_append_sep]
              have hd := dropWhile_length_le (fun c => !isPathSeparator c) (d :: rest2)
              have hdrop : List.dropWhile (fun c => !isPathSeparator c) (c :: d :: rest2)
                  = List.dropWhile (fun c => !isPathSeparator c) (d :: rest2) := by
                simp [List.dropWhile_cons, h1]
              rw [hdrop]
              exact ih _ _ (by simp at h hd; omega)

theorem cleanChars_cons (c : Char) (rest : List Char) :
    cleanChars (c :: rest) =
      if (cleanLoop (isPathSeparator c) (rest.length + 1)
            (if isPathSeparator c then rest else c :: rest)
            (if isPathSeparator c then { out := ['/'], dotdot := 1 }
             else { out := [], dotdot := 0 })).out.length = 0
      then ['.']
      else (cleanLoop (isPathSeparator c) (rest.length + 1)
            (if isPathSeparator c then rest else c :: rest)
            (if isPathSeparator c then { out := ['/'], dotdot := 1 }
             else { out := [], dotdot := 0 })).out := by
  by_cases h : isPathSeparator c = true <;> simp [cleanChars, h]

theorem takeWhile_plain (e : List Char) (h : ∀ c ∈ e, isPathSeparator c = false) :
    e.takeWhile (fun c => !isPathSeparator c) = e := by
  rw [List.takeWhile_eq_self_iff]
  intro c hc
  simp [h c hc]

theorem dropWhile_plain (e : List Char) (h : ∀ c ∈ e, isPathSeparator c = false) :
    e.dropWhile (fun c => !isPathSeparator c) = [] := by
  rw [List.dropWhile_eq_nil_iff]
  intro c hc
  simp [h c hc]

/-- The loop on `"/" ++ e` for a real element `e` is one `elementStep`. -/
theorem cleanLoop_sep_plain (r : Bool) (f : Nat) (e : List Char) (st : CleanState)
    (hf : e.length + 1 ≤ f) (he : plainElement e) :
    cleanLoop r f ('/' :: e) st = elementStep r e st := by
  obtain ⟨hne, hsep, hdot, hdotdot⟩ := he
  obtain ⟨f1, rfl⟩ : ∃ f1, f = f1 + 1 := ⟨f - 1, by omega⟩
  rw [cleanLoop_cons, if_pos (by simp [isPathSeparator])]
  cases e with
  | nil => exact absurd rfl hne
  | cons c rest =>
    obtain ⟨f2, rfl⟩ : ∃ f2, f1 = f2 + 1 := ⟨f1 - 1, by simp at hf; omega⟩
    have hc : isPathSeparator c = false := hsep c (by simp)
    have h2 : ¬ (c = '.' ∧ endOrSeparator rest = true) := by
      rintro ⟨rfl, h⟩
      cases rest with
      | nil => exact hdot rfl
      | cons d rest2 =>
        have := hsep d (by simp)
        simp [endOrSeparator, this] at h
    have h3 : ¬ (c = '.' ∧ rest.head? = some '.' ∧ endOrSeparator rest.tail = true) := by
      rintro ⟨rfl, h, h'⟩
      cases rest with
      | nil => simp at h
      | cons d rest2 =>
        simp at h
        subst h
        cases rest2 with
        | nil => exact hdotdot rfl
        | cons x rest3 =>
          have := hsep x (by simp)
          simp [endOrSeparator, this] at h'
    rw [cleanLoop_cons, if_neg (by simp [hc]), if_neg h2, if_neg h3,
      dropWhile_plain _ hsep, cleanLoop_nil]

theorem elementStep_plain_out (r : Bool) (e : List Char) (st : CleanState)
    (h : ∀ c ∈ e, isPathSeparator c = false) :
    (elementStep r e st).out =
      (if (r && st.out.length != 1) || (!r && st.out.length != 0) then st.out ++ ['/']
       else st.out) ++ e := by
  simp only [elementStep, takeWhile_plain e h]

theorem cleanChars_ne_nil (p : List Char) : cleanChars p ≠ [] := by
  cases p with
  | nil => simp [cleanChars]
  | cons c rest =>
    rw [cleanChars_cons]
    generalize cleanLoop _ _ _ _ = S
    by_cases h : S.out.length = 0
    · rw [if_pos h]; simp
    · rw [if_neg h]
      intro h'
      exact h (by rw [h']; rfl)

theorem Clean_ne_empty (p : String) : Clean p ≠ "" := by
  intro h
  have := congrArg String.data h
  exact cleanChars_ne_nil p.data this

theorem Join_two (p name : String) (hp : p ≠ "") :
    Join [p, name] = Clean (p ++ "/" ++ name) := by
  simp [Join, hp, stringsJoin]

theorem Join_empty_left (name : String) (hn : name ≠ "") :
    Join ["", name] = Clean name := by
  simp [Join, hn, stringsJoin]

theorem plainElement_dbdata : plainElement "dbdata".data := by
  refine ⟨by decide, ?_, by decide, by decide⟩
  decide

theorem plainElement_users_db : plainElement "users.db".data := by
  refine ⟨by decide, ?_, by decide, by decide⟩
  decide

theorem Join_dbdata_ne_empty (p : String) : Join [p, "dbdata"] ≠ "" := by
  by_cases hp : p = ""
  · subst hp; decide
  · rw [Join_two p _ hp]; exact Clean_ne_empty _

/-! ## Idempotence of `filepath.Clean` -/

/-- Walking back stops at index `n` when the bytes above `n` are no separators
and `n` is the `dotdot` mark or holds a separator. -/
theorem backtrack_stop (buf : List Char) (dotdot n : Nat) (hd : dotdot ≤ n)
    (hn : n = dotdot ∨ isPathSeparator (buf.getD n '/') = true) :
    ∀ j, (∀ i, n < i → i ≤ n + j → isPathSeparator (buf.getD i '/') = false) →
      backtrack buf dotdot (n + j) = n := by
  intro j
  induction j with
  | zero =>
    intro _
    cases n with
    | zero => rfl
    | succ m =>
      rw [Nat.add_zero, backtrack]
      rcases hn with hn | hn
      · rw [if_neg]
        rw [hn]; simp
      · rw [if_neg]
        rw [hn]; simp
  | succ j ih =>
    intro h
    have h1 : isPathSeparator (buf.getD (n + j + 1) '/') = false :=
      h (n + j + 1) (by omega) (by omega)
    have h2 : dotdot < n + j + 1 := by omega
    rw [← Nat.add_assoc, backtrack]
    simp only [h1, h2, decide_True, Bool.not_false, Bool.and_self, if_true]
    exact ih (fun i hi hi' => h i hi (by omega))

theorem getD_plain (e : List Char) (h : ∀ c ∈ e, isPathSeparator c = false) (k : Nat)
    (hk : k < e.length) : isPathSeparator (e.getD k '/') = false := by
  rw [List.getD_eq_getElem e '/' hk]
  exact h _ (List.getElem_mem hk)

theorem dotdotStep_at_mark (st : CleanState) (h : st.out.length = st.dotdot) :
    dotdotStep false st =
      { out := (if 0 < st.out.length then st.out ++ ['/'] else st.out) ++ ['.', '.'],
        dotdot := ((if 0 < st.out.length then st.out ++ ['/'] else st.out) ++ ['.', '.']).length } := by
  have : ¬ st.dotdot < st.out.length := by omega
  simp only [dotdotStep, if_neg this]
  rfl

theorem elementStep_dotdot (r : Bool) (e : List Char) (st : CleanState) :
    (elementStep r e st).dotdot = st.dotdot := rfl

theorem Built.dotdot_le {r : Bool} {st : CleanState} (h : Built r st) :
    st.dotdot ≤ st.out.length := by
  induction h with
  | init => cases r <;> simp [initState]
  | dots st _ hr hlen _ =>
    subst hr
    rw [dotdotStep_at_mark st hlen]
  | elem st e _ he ih =>
    rw [elementStep_plain_out r e st he.2.1, elementStep_dotdot]
    split <;> simp <;> omega

theorem Built.rooted {st : CleanState} (h : Built true st) :
    st.dotdot = 1 ∧ ∃ t, st.out = '/' :: t := by
  induction h with
  | init => exact ⟨rfl, [], rfl⟩
  | dots st _ hr _ _ => exact absurd hr (by decide)
  | elem st e _ he ih =>
    obtain ⟨hd, t, ht⟩ := ih
    refine ⟨hd, ?_⟩
    rw [elementStep_plain_out true e st he.2.1, ht]
    split
    · exact ⟨t ++ ['/'] ++ e, by simp⟩
    · exact ⟨t ++ e, by simp⟩

theorem Built.not_rooted {st : CleanState} (h : Built false st) :
    ∀ c t, st.out = c :: t → isPathSeparator c = false := by
  induction h with
  | init => intro c t h; simp [initState] at h
  | dots st _ _ hlen ih =>
    intro c t h
    rw [dotdotStep_at_mark st hlen] at h
    cases hout : st.out with
    | nil =>
      rw [hout] at h
      simp at h
      rw [← h.1]; decide
    | cons d u =>
      rw [hout] at h
      simp at h
      rw [← h.1]
      exact ih d u hout
  | elem st e _ he ih =>
    intro c t h
    rw [elementStep_plain_out false e st he.2.1] at h
    cases hout : st.out with
    | nil =>
      rw [hout] at h
      simp at h
      exact he.2.1 c (by rw [h]; simp)
    | cons d u =>
      rw [hout] at h
      simp at h
      rw [← h.1]
      exact ih d u hout

/-- A `..` directly after a real element removes that element again. -/
theorem dotdotStep_elementStep {r : Bool} {st : CleanState} (h : Built r st)
    (e : List Char) (he : plainElement e) :
    dotdotStep r (elementStep r e st) = st := by
  obtain ⟨hne, hsep, -, -⟩ := he
  have hle := h.dotdot_le
  have hpos : 0 < e.length := List.length_pos.mpr hne
  by_cases hcond : ((r && st.out.length != 1) || (!r && st.out.length != 0)) = true
  · have hout : (elementStep r e st).out = st.out ++ '/' :: e := by
      rw [elementStep_plain_out r e st hsep, if_pos hcond]; simp
    have hbt : backtrack (st.out ++ '/' :: e) st.dotdot (st.out.length + e.length)
        = st.out.length := by
      apply backtrack_stop _ _ _ hle
      · right
        rw [List.getD_append_right _ _ _ _ (Nat.le_refl _)]
        simp [isPathSeparator]
      · intro i hi hi'
        rw [List.getD_append_right _ _ _ _ (by omega)]
        obtain ⟨k, hk⟩ : ∃ k, i - st.out.length = k + 1 := ⟨i - st.out.length - 1, by omega⟩
        rw [hk, List.getD_cons_succ]
        exact getD_plain e hsep k (by omega)
    have hlt : st.dotdot < (st.out ++ '/' :: e).length := by simp; omega
    simp only [dotdotStep, hout, elementStep_dotdot, if_pos hlt]
    have hl : (st.out ++ '/' :: e).length - 1 = st.out.length + e.length := by simp
    rw [hl, hbt]
    simp
  · have hout : (elementStep r e st).out = st.out ++ e := by
      rw [elementStep_plain_out r e st hsep, if_neg hcond]
    have hmark : st.out.length = st.dotdot := by
      cases r with
      | true =>
        have := h.rooted
        simp at hcond
        omega
      | false =>
        simp at hcond
        rw [hcond] at hle ⊢
        simp at hle ⊢
        omega
    have hbt : backtrack (st.out ++ e) st.dotdot (st.out.length + (e.length - 1))
        = st.out.length := by
      apply backtrack_stop _ _ _ hle
      · left; exact hmark
      · intro i hi hi'
        rw [List.getD_append_right _ _ _ _ (by omega)]
        exact getD_plain e hsep _ (by omega)
    have hlt : st.dotdot < (st.out ++ e).length := by simp; omega
    simp only [dotdotStep, hout, elementStep_dotdot, if_pos hlt]
    have hl : (st.out ++ e).length - 1 = st.out.length + (e.length - 1) := by simp; omega
    rw [hl, hbt]
    simp

theorem takeWhile_eq_nil_of_endOrSeparator (l : List Char)
    (h : l.takeWhile (fun c => !isPathSeparator c) = []) : endOrSeparator l = true := by
  cases l with
  | nil => rfl
  | cons d u =>
    by_cases hd : isPathSeparator d = true
    · exact hd
    · simp [List.takeWhile_cons, hd] at h

/-- The bytes copied in the default case of the loop form a real element. -/
theorem plainElement_takeWhile (c : Char) (rest : List Char)
    (h1 : ¬ isPathSeparator c = true)
    (h2 : ¬ (c = '.' ∧ endOrSeparator rest = true))
    (h3 : ¬ (c = '.' ∧ rest.head? = some '.' ∧ endOrSeparator rest.tail = true)) :
    plainElement ((c :: rest).takeWhile (fun c => !isPathSeparator c)) := by
  have hc : (c :: rest).takeWhile (fun c => !isPathSeparator c)
      = c :: rest.takeWhile (fun c => !isPathSeparator c) := by
    simp [List.takeWhile_cons, h1]
  refine ⟨by rw [hc]; simp, ?_, ?_, ?_⟩
  · intro x hx
    have := List.mem_takeWhile_imp hx
    simpa using this
  · rw [hc]
    intro h
    simp only [List.cons.injEq] at h
    exact h2 ⟨h.1, takeWhile_eq_nil_of_endOrSeparator rest h.2⟩
  · rw [hc]
    intro h
    simp only [List.cons.injEq] at h
    obtain ⟨hc1, hr⟩ := h
    cases rest with
    | nil => simp at hr
    | cons d u =>
      by_cases hd : isPathSeparator d = true
      · simp [List.takeWhile_cons, hd] at hr
      · simp only [List.takeWhile_cons, hd, Bool.not_eq_true, Bool.not_false, if_true,
          List.cons.injEq] at hr
        simp at hr
        exact h3 ⟨hc1, by simp [hr.1], takeWhile_eq_nil_of_endOrSeparator u (by simpa using hr.2)⟩

theorem Built.afterDotdot {r : Bool} {st : CleanState} (h : Built r st) :
    Built r (dotdotStep r st) := by
  by_cases hlt : st.dotdot < st.out.length
  · cases h with
    | init => cases r <;> simp [initState] at hlt
    | dots st0 _ hr hlen =>
      subst hr
      rw [dotdotStep_at_mark st0 hlen] at hlt
      simp at hlt
    | elem st0 e hb he =>
      rw [dotdotStep_elementStep hb e he]
      exact hb
  · have hlen : st.out.length = st.dotdot := by
      have := h.dotdot_le
      omega
    cases r with
    | false => exact Built.dots st h rfl hlen
    | true =>
      have : dotdotStep true st = st := by
        simp [dotdotStep, hlt]
      rw [this]
      exact h

/-- Every state the loop reaches is built from the initial state. -/
theorem Built.afterLoop {r : Bool} :
    ∀ (f : Nat) (input : List Char) (st : CleanState), Built r st →
      Built r (cleanLoop r f input st) := by
  intro f
  induction f with
  | zero => intro input st h; exact h
  | succ f ih =>
    intro input st h
    cases input with
    | nil => exact h
    | cons c rest =>
      rw [cleanLoop_cons]
      by_cases h1 : isPathSeparator c = true
      · rw [if_pos h1]; exact ih _ _ h
      · rw [if_neg h1]
        by_cases h2 : c = '.' ∧ endOrSeparator rest = true
        · rw [if_pos h2]; exact ih _ _ h
        · rw [if_neg h2]
          by_cases h3 : c = '.' ∧ rest.head? = some '.' ∧ endOrSeparator rest.tail = true
          · rw [if_pos h3]; exact ih _ _ h.afterDotdot
          · rw [if_neg h3]
            apply ih
            have hp := plainElement_takeWhile c rest h1 h2 h3
            have := Built.elem st _ h hp
            simpa [elementStep, takeWhile_plain _ hp.2.1] using this

theorem cleanLoop_plain (r : Bool) (f : Nat) (e : List Char) (st : CleanState)
    (hf : e.length ≤ f) (he : plainElement e) :
    cleanLoop r f e st = elementStep r e st := by
  rw [← cleanLoop_sep_plain r (f + 1) e st (by omega) he, cleanLoop_cons,
    if_pos (by simp [isPathSeparator])]

theorem cleanLoop_dotdot (r : Bool) (f : Nat) (st : CleanState) (hf : 2 ≤ f) :
    cleanLoop r f ['.', '.'] st = dotdotStep r st := by
  obtain ⟨g, rfl⟩ : ∃ g, f = g + 1 := ⟨f - 1, by omega⟩
  rw [cleanLoop_cons, if_neg (by decide), if_neg (by decide), if_pos (by decide)]
  exact cleanLoop_nil r g _

theorem cleanLoop_sep_dotdot (r : Bool) (f : Nat) (st : CleanState) (hf : 3 ≤ f) :
    cleanLoop r f ['/', '.', '.'] st = dotdotStep r st := by
  obtain ⟨g, rfl⟩ : ∃ g, f = g + 1 := ⟨f - 1, by omega⟩
  rw [cleanLoop_cons, if_pos (by decide)]
  exact cleanLoop_dotdot r g st (by omega)

/-- Running the loop on what a reachable state has written gives that state
again. -/
theorem Built.replay {r : Bool} {st : CleanState} (h : Built r st) :
    ∀ f, st.out.length ≤ f →
      cleanLoop r f (if r then st.out.tail else st.out) (initState r) = st := by
  induction h with
  | init =>
    intro f _
    cases r <;> simp [initState, cleanLoop_nil]
  | dots st hb hr hlen ih =>
    subst hr
    intro f hf
    rw [dotdotStep_at_mark st hlen] at hf ⊢
    simp only [Bool.false_eq_true, if_false] at ih ⊢
    by_cases hpos : 0 < st.out.length
    · rw [if_pos hpos] at hf ⊢
      have : st.out ++ ['/'] ++ ['.', '.'] = st.out ++ '/' :: ['.', '.'] := by simp
      rw [this] at hf ⊢
      simp only [List.length_append, List.length_cons, List.length_nil] at hf
      rw [cleanLoop_append_sep false _ f st.out _ (by simp; omega), ih f (by omega),
        cleanLoop_sep_dotdot false f st (by omega), dotdotStep_at_mark st hlen, if_pos hpos]
      simp
    · rw [if_neg hpos] at hf ⊢
      have hnil : st.out = [] := List.length_eq_zero.mp (by omega)
      have hst : st = initState false := by
        cases st with
        | mk out dotdot =>
          simp only at hnil hlen
          subst hnil
          simp at hlen
          simp [initState, hlen]
      simp only [hnil, List.nil_append, List.length_cons, List.length_nil] at hf ⊢
      rw [cleanLoop_dotdot false f _ (by omega), ← hst, dotdotStep_at_mark st hlen, if_neg hpos,
        hnil]
      simp
  | elem st e hb he ih =>
    intro f hf
    have hsep := he.2.1
    by_cases hcond : ((r && st.out.length != 1) || (!r && st.out.length != 0)) = true
    · have hout : (elementStep r e st).out = st.out ++ '/' :: e := by
        rw [elementStep_plain_out r e st hsep, if_pos hcond]; simp
      have hin : (if r = true then (st.out ++ '/' :: e).tail else st.out ++ '/' :: e)
          = (if r = true then st.out.tail else st.out) ++ '/' :: e := by
        cases r with
        | false => simp
        | true =>
          obtain ⟨-, t, ht⟩ := hb.rooted
          simp [ht]
      rw [hout] at hf ⊢
      simp only [List.length_append, List.length_cons] at hf
      have hl : (if r = true then st.out.tail else st.out).length ≤ st.out.length := by
        cases r <;> simp
      rw [hin, cleanLoop_append_sep r e f _ _ (by omega), ih f (by omega),
        cleanLoop_sep_plain r f e st (by omega) he]
    · have hout : (elementStep r e st).out = st.out ++ e := by
        rw [elementStep_plain_out r e st hsep, if_neg hcond]
      have hst : st = initState r ∧ (if r = true then (st.out ++ e).tail else st.out ++ e) = e := by
        cases st with
        | mk out dotdot =>
          cases r with
          | true =>
            obtain ⟨hd, t, ht⟩ := hb.rooted
            simp only at hd ht
            simp only [ht] at hcond
            simp at hcond
            subst hcond
            subst ht
            subst hd
            simp [initState]
          | false =>
            have hle := hb.dotdot_le
            simp at hcond
            simp only at hle
            subst hcond
            simp at hle
            subst hle
            simp [initState]
      rw [hout] at hf ⊢
      simp only [List.length_append] at hf
      rw [hst.2, cleanLoop_plain r f e _ (by omega) he, ← hst.1]

/-- Cleaning is idempotent: `Clean(Clean(p)) = Clean(p)`. -/
theorem cleanChars_idempotent (p : List Char) : cleanChars (cleanChars p) = cleanChars p := by
  cases p with
  | nil => decide
  | cons c rest =>
    have hb : Built (isPathSeparator c)
        (cleanLoop (isPathSeparator c) (rest.length + 1)
          (if isPathSeparator c then rest else c :: rest)
          (if isPathSeparator c then { out := ['/'], dotdot := 1 }
           else { out := [], dotdot := 0 })) := by
      apply Built.afterLoop
      have := @Built.init (isPathSeparator c)
      simpa [initState] using this
    rw [cleanChars_cons]
    generalize hr : isPathSeparator c = r at hb ⊢
    generalize cleanLoop r (rest.length + 1) (if r = true then rest else c :: rest)
      (if r = true then ({ out := ['/'], dotdot := 1 } : CleanState)
       else { out := [], dotdot := 0 }) = S at hb ⊢
    by_cases hz : S.out.length = 0
    · rw [if_pos hz]; decide
    · rw [if_neg hz]
      cases hS : S.out with
      | nil => rw [hS] at hz; simp at hz
      | cons d t =>
        have hd : isPathSeparator d = r := by
          cases r with
          | true =>
            obtain ⟨-, u, hu⟩ := hb.rooted
            rw [hu] at hS
            simp at hS
            rw [← hS.1]; rfl
          | false => exact hb.not_rooted d t hS
        have hre := hb.replay (t.length + 1) (by rw [hS]; simp)
        rw [hS] at hre
        rw [cleanChars_cons, hd]
        have hinit : (if r = true then ({ out := ['/'], dotdot := 1 } : CleanState)
            else { out := [], dotdot := 0 }) = initState r := by
          simp [initState]
        have hin : (if r = true then t else d :: t)
            = (if r = true then (d :: t).tail else d :: t) := by simp
        rw [hinit, hin, hre, hS]
        simp

theorem Clean_idempotent (p : String) : Clean (Clean p) = Clean p := by
  apply String.ext
  exact cleanChars_idempotent p.data

/-! ## `filepath.Join` with a real element -/

theorem Built.ne_dot {st : CleanState} (h : Built false st) : st.out ≠ ['.'] := by
  cases h with
  | init => simp [initState]
  | dots st0 _ _ hlen =>
    rw [dotdotStep_at_mark st0 hlen]
    intro h
    have := congrArg List.length h
    simp at this
  | elem st0 e hb he =>
    rw [elementStep_plain_out false e st0 he.2.1]
    by_cases hz : st0.out.length = 0
    · have hnil : st0.out = [] := List.length_eq_zero.mp hz
      simp [hnil]
      exact he.2.2.1
    · intro h
      have := congrArg List.length h
      have hpos : 0 < e.length := List.length_pos.mpr he.1
      simp [hz] at this
      omega

/-- The state `S` the loop reaches on a non-empty path `c :: rest`: `Clean`
of the path is read off `S`, and so is `Clean` of the path extended by a
separator and a real element. -/
theorem cleanChars_state (c : Char) (rest : List Char) :
    ∃ S : CleanState, Built (isPathSeparator c) S
      ∧ cleanChars (c :: rest) = (if S.out.length = 0 then ['.'] else S.out)
      ∧ ∀ e, plainElement e →
          cleanChars ((c :: rest) ++ '/' :: e) =
            (if (isPathSeparator c && S.out.length != 1)
                || (!isPathSeparator c && S.out.length != 0)
             then S.out ++ ['/'] else S.out) ++ e := by
  refine ⟨cleanLoop (isPathSeparator c) (rest.length + 1)
      (if isPathSeparator c then rest else c :: rest) (initState (isPathSeparator c)),
    Built.afterLoop _ _ _ Built.init, ?_, ?_⟩
  · rw [cleanChars_cons]
    simp [initState]
  · intro e he
    rw [List.cons_append, cleanChars_cons]
    generalize isPathSeparator c = r
    have hinit : (if r = true then ({ out := ['/'], dotdot := 1 } : CleanState)
        else { out := [], dotdot := 0 }) = initState r := by
      simp [initState]
    have hin : (if r = true then rest ++ '/' :: e else c :: (rest ++ '/' :: e))
        = (if r = true then rest else c :: rest) ++ '/' :: e := by
      cases r <;> simp
    rw [hinit, hin]
    generalize ha : (if r = true then rest else c :: rest) = a
    have hal : a.length ≤ rest.length + 1 := by
      subst ha; cases r <;> simp
    rw [cleanLoop_append_sep r e _ a _ (by simp; omega),
      cleanLoop_sep_plain r _ e _ (by simp; omega) he,
      cleanLoop_fuel r _ (rest.length + 1) a _ (by simp; omega) hal]
    generalize cleanLoop r (rest.length + 1) a (initState r) = S
    rw [elementStep_plain_out r e S he.2.1]
    have hpos : 0 < e.length := List.length_pos.mpr he.1
    rw [if_neg]
    intro h
    simp only [List.length_append] at h
    omega

/-- A real element is a clean path. -/
theorem cleanChars_plain (e : List Char) (he : plainElement e) : cleanChars e = e := by
  cases e with
  | nil => exact absurd rfl he.1
  | cons c rest =>
    have hc : isPathSeparator c = false := he.2.1 c (by simp)
    rw [cleanChars_cons, hc]
    simp only [Bool.false_eq_true, if_false]
    rw [cleanLoop_plain false _ (c :: rest) _ (by simp) he,
      elementStep_plain_out false _ _ he.2.1]
    simp

/-- What `Clean` makes of a non-empty path extended by a separator and a real
element, in terms of `Clean` of the path. -/
theorem cleanChars_join_plain (p e : List Char) (hp : p ≠ []) (he : plainElement e) :
    cleanChars (p ++ '/' :: e) =
      if cleanChars p = ['.'] then e
      else if cleanChars p = ['/'] then '/' :: e
      else cleanChars p ++ '/' :: e := by
  cases p with
  | nil => exact absurd rfl hp
  | cons c rest =>
    obtain ⟨S, hb, h1, h2⟩ := cleanChars_state c rest
    rw [h2 e he, h1]
    cases hr : isPathSeparator c with
    | true =>
      rw [hr] at hb
      obtain ⟨-, t, ht⟩ := hb.rooted
      rw [ht]
      cases t with
      | nil => simp
      | cons d u => simp
    | false =>
      rw [hr] at hb
      by_cases hz : S.out.length = 0
      · have hnil : S.out = [] := List.length_eq_zero.mp hz
        simp [hnil]
      · have hdot := hb.ne_dot
        have hroot : S.out ≠ ['/'] := by
          intro h
          have := hb.not_rooted '/' [] h
          simp [isPathSeparator] at this
        simp [hz, hdot, hroot]

theorem Clean_plain (name : String) (hname : plainElement name.data) : Clean name = name :=
  String.ext (cleanChars_plain name.data hname)

/-- What `filepath.Join(p, name)` is for a real element `name`, in terms of
`Clean(p)`. -/
theorem Join_plain (p name : String) (hname : plainElement name.data) :
    Join [p, name] =
      if p = "" ∨ Clean p = "." then name
      else if Clean p = "/" then "/" ++ name
      else Clean p ++ "/" ++ name := by
  have hne : name ≠ "" := fun h => hname.1 (by rw [h])
  by_cases hp : p = ""
  · subst hp
    rw [Join_empty_left name hne, if_pos (Or.inl rfl)]
    exact Clean_plain name hname
  · have hpd : p.data ≠ [] := fun h => hp (String.ext h)
    rw [Join_two p name hp]
    have key := cleanChars_join_plain p.data name.data hpd hname
    have e1 : (Clean p = ".") ↔ cleanChars p.data = ['.'] := by
      rw [String.ext_iff]; rfl
    have e2 : (Clean p = "/") ↔ cleanChars p.data = ['/'] := by
      rw [String.ext_iff]; rfl
    apply String.ext
    have hd : (Clean (p ++ "/" ++ name)).data = cleanChars (p.data ++ '/' :: name.data) := by
      simp [Clean, String.data_append]
    rw [hd, key]
    by_cases h1 : cleanChars p.data = ['.']
    · rw [if_pos h1, if_pos (Or.inr (e1.mpr h1))]
    · have h1' : ¬ (p = "" ∨ Clean p = ".") := by
        rintro (h | h)
        · exact hp h
        · exact h1 (e1.mp h)
      rw [if_neg h1, if_neg h1']
      by_cases h2 : cleanChars p.data = ['/']
      · rw [if_pos h2, if_pos (e2.mpr h2)]
        simp [String.data_append]
      · rw [if_neg h2, if_neg (fun h => h2 (e2.mp h))]
        simp [Clean, String.data_append]

/-- Joining a real element to a path that is already clean, and is neither
`/` nor `.`, is concatenation with a separator. -/
theorem Join_clean (p name : String) (hp : Clean p = p) (hroot : p ≠ "/") (hdot : p ≠ ".")
    (hname : plainElement name.data) : Join [p, name] = p ++ "/" ++ name := by
  have hne : p ≠ "" := fun h => Clean_ne_empty p (by rw [hp, h])
  have h1 : ¬ (p = "" ∨ Clean p = ".") := by
    rintro (h | h)
    · exact hne h
    · exact hdot (by rw [← hp, h])
  have h2 : ¬ Clean p = "/" := fun h => hroot (by rw [← hp, h])
  rw [Join_plain p name hname, if_neg h1, if_neg h2, hp]

/-- The result of `filepath.Join(p, name)` is `p + "/" + name` exactly when `p` is already
clean and is neither `/` nor `.`. -/
theorem Join_eq_append_iff (p name : String) (hname : plainElement name.data) :
    Join [p, name] = p ++ "/" ++ name ↔ (Clean p = p ∧ p ≠ "/" ∧ p ≠ ".") := by
  constructor
  · intro h
    rw [Join_plain p name hname] at h
    by_cases h1 : p = "" ∨ Clean p = "."
    · rw [if_pos h1] at h
      have := congrArg String.length h
      simp [String.length_append] at this
      exact absurd this.2 (by decide)
    · rw [if_neg h1] at h
      have hp : p ≠ "" := fun h0 => h1 (Or.inl h0)
      by_cases h2 : Clean p = "/"
      · rw [if_pos h2] at h
        have := congrArg String.data h
        simp only [String.data_append] at this
        have h3 : ("/" : String).data ++ name.data
            = (p.data ++ ("/" : String).data) ++ name.data := by
          rw [this]
        have h4 := List.append_cancel_right h3
        have h5 := congrArg List.length h4
        simp only [List.length_append] at h5
        have h6 : p.data.length = 0 := by omega
        exact absurd (String.ext (List.length_eq_zero.mp h6)) hp
      · rw [if_neg h2] at h
        have := congrArg String.data h
        simp only [String.data_append] at this
        have h4 : (Clean p).data = p.data :=
          List.append_cancel_right (List.append_cancel_right this)
        have hc : Clean p = p := String.ext h4
        refine ⟨hc, ?_, ?_⟩
        · intro h0; exact h2 (by rw [hc, h0])
        · intro h0; exact h1 (Or.inr (by rw [hc, h0]))
  · rintro ⟨hc, hroot, hdot⟩
    exact Join_clean p name hc hroot hdot hname

/-- The database file is `users.db` directly under the directory
`filepath.Join(p, "dbdata")`, for every `p`. -/
theorem Join_users_db (p : String) :
    Join [Join [p, "dbdata"], "users.db"] = Join [p, "dbdata"] ++ "/users.db" := by
  have hform := Join_plain p "dbdata" plainElement_dbdata
  have hclean : Clean (Join [p, "dbdata"]) = Join [p, "dbdata"] := by
    by_cases hp : p = ""
    · subst hp; decide
    · rw [Join_two p _ hp]; exact Clean_idempotent _
  have hlen : 6 ≤ (Join [p, "dbdata"]).length := by
    rw [hform]
    have h6 : ("dbdata" : String).length = 6 := by decide
    split
    · omega
    · split
      · rw [String.length_append]; omega
      · rw [String.length_append]; omega
  have hroot : Join [p, "dbdata"] ≠ "/" := by
    intro h
    rw [h] at hlen
    exact absurd hlen (by decide)
  have hdot : Join [p, "dbdata"] ≠ "." := by
    intro h
    rw [h] at hlen
    exact absurd hlen (by decide)
  rw [Join_clean _ "users.db" hclean hroot hdot plainElement_users_db, String.append_assoc]
  rfl

/-! ## The loop bound of `parseOpts` -/

theorem scannerSkipSpaces_length (s : List Char) :
    (scannerSkipSpaces s).2.length ≤ s.length
      ∧ ((scannerSkipSpaces s).1.2 = true → (scannerSkipSpaces s).2.length < s.length) := by
  induction s with
  | nil => simp [scannerSkipSpaces]
  | cons r rest ih =>
    simp only [scannerSkipSpaces]
    split
    · exact ⟨by simp; omega, fun h => by have := ih.2 h; simp; omega⟩
    · simp

theorem scanKey_length (rest : List Char) :
    ∀ (r : Char) (keyRunes : List Char), (scanKey r rest keyRunes).2.2.length ≤ rest.length := by
  induction rest with
  | nil =>
    intro r keyRunes
    unfold scanKey
    split <;> simp
  | cons c t ih =>
    intro r keyRunes
    unfold scanKey
    split
    · have := ih c (keyRunes ++ [r])
      simp; omega
    · simp

theorem scanValue_length :
    ∀ (n : Nat) (rest : List Char), rest.length ≤ n →
      ∀ (r : Char) (valRunes val s5 : List Char),
        scanValue r rest valRunes = some (val, s5) → s5.length ≤ rest.length := by
  intro n
  induction n with
  | zero =>
    intro rest hn r valRunes val s5 h
    have : rest = [] := List.length_eq_zero.mp (by omega)
    subst this
    unfold scanValue at h
    split at h
    · simp at h; simp [h.2]
    · split at h
      · simp at h
      · simp at h; simp [h.2]
  | succ n ih =>
    intro rest hn r valRunes val s5 h
    unfold scanValue at h
    split at h
    · simp at h; simp [h.2]
    · split at h
      · cases rest with
        | nil => simp at h
        | cons c t =>
          cases t with
          | nil => simp at h; simp [h.2]
          | cons d u =>
            simp only at h
            have := ih u (by simp at hn; omega) d _ val s5 h
            simp; omega
      · cases rest with
        | nil => simp at h; simp [h.2]
        | cons c t =>
          simp only at h
          have := ih t (by simp at hn; omega) c _ val s5 h
          simp; omega

theorem scanQuoted_length :
    ∀ (n : Nat) (s : List Char), s.length ≤ n →
      ∀ (valRunes val s5 : List Char),
        scanQuoted s valRunes = some (val, s5) → s5.length ≤ s.length := by
  intro n
  induction n with
  | zero =>
    intro s hn valRunes val s5 h
    have : s = [] := List.length_eq_zero.mp (by omega)
    subst this
    simp [scanQuoted] at h
  | succ n ih =>
    intro s hn valRunes val s5 h
    cases s with
    | nil => simp [scanQuoted] at h
    | cons r rest =>
      unfold scanQuoted at h
      split at h
      · simp at h; simp [h.2]
      · split at h
        · cases rest with
          | nil => simp at h
          | cons c t =>
            simp only at h
            have := ih t (by simp at hn; omega) _ val s5 h
            simp; omega
        · have := ih rest (by simp at hn; omega) _ val s5 h
          simp; omega


/-- The loop of `parseOpts` never runs out of iterations when it is given more
than the number of runes left. -/
theorem parseLoop_fuel :
    ∀ (fuel : Nat) (s : List Char) (o : values), s.length < fuel →
      (parseLoop fuel s o).2 ≠ some .outOfFuel := by
  intro fuel
  induction fuel with
  | zero => intro s o h; omega
  | succ fuel ih =>
    intro s o h
    unfold parseLoop
    have h1 := scannerSkipSpaces_length s
    generalize scannerSkipSpaces s = a1 at h1
    obtain ⟨⟨r1, ok1⟩, s1⟩ := a1
    cases ok1 with
    | false => simp
    | true =>
      simp only
      have hs1 : s1.length < s.length := h1.2 rfl
      have h2 := scanKey_length s1 r1 []
      generalize scanKey r1 s1 [] = a2 at h2
      obtain ⟨keyRunes, ⟨r2, ok2⟩, s2⟩ := a2
      simp only at h2 ⊢
      have h3 : (if (r2 != '=') = true then scannerSkipSpaces s2 else ((r2, ok2), s2)).2.length
          ≤ s2.length := by
        split
        · exact (scannerSkipSpaces_length s2).1
        · simp
      generalize (if (r2 != '=') = true then scannerSkipSpaces s2 else ((r2, ok2), s2)) = a3 at h3
      obtain ⟨⟨r3, ok3⟩, s3⟩ := a3
      simp only at h3 ⊢
      split
      · simp
      · have h4 := scannerSkipSpaces_length s3
        generalize scannerSkipSpaces s3 = a4 at h4
        obtain ⟨⟨r4, ok4⟩, s4⟩ := a4
        cases ok4 with
        | false => simp
        | true =>
          simp only
          have hs4 : s4.length < s3.length := h4.2 rfl
          split
          · cases hv : scanValue r4 s4 [] with
            | none => simp
            | some p =>
              obtain ⟨val, s5⟩ := p
              simp only
              have := scanValue_length s4.length s4 (Nat.le_refl _) r4 [] val s5 hv
              exact ih s5 _ (by omega)
          · cases hv : scanQuoted s4 [] with
            | none => simp
            | some p =>
              obtain ⟨val, s5⟩ := p
              simp only
              have := scanQuoted_length s4.length s4 (Nat.le_refl _) [] val s5 hv
              exact ih s5 _ (by omega)

/-- The parser `parseOpts` never stops for lack of iterations. -/
theorem parseOpts_fuel (name : String) (o : values) :
    (parseOpts name o).2 ≠ some .outOfFuel :=
  parseLoop_fuel _ _ _ (Nat.lt_succ_self _)

/-! ## Properties of `db.go` -/

/-- The handle after the three setters of `initializePostgres`. -/
theorem postgres_handle (dsn : String) :
    (((DB.new "postgres" dsn).SetMaxOpenConns 10).SetMaxIdleConns 5).SetConnMaxLifetime
        (30 * Minute)
      = { driverName := "postgres", dataSourceName := dsn, maxOpen := 10, maxIdleCount := 5,
          maxLifetime := 1800000000000 } := by
  rfl

/-- The handle after the three setters of `initializeSQLite`. -/
theorem sqlite_handle (dsn : String) :
    (((DB.new "sqlite" dsn).SetMaxOpenConns 1).SetMaxIdleConns 1).SetConnMaxLifetime
        (30 * Minute)
      = { driverName := "sqlite", dataSourceName := dsn, maxOpen := 1, maxIdleCount := 1,
          maxLifetime := 1800000000000 } := by
  rfl

/-- With all five variables non-empty the configuration is the `postgres` one. -/
theorem getDatabaseConfig_all_set (w : World) (basePath : String)
    (hUser : w.getenv "DB_USER" ≠ "") (hPassword : w.getenv "DB_PASSWORD" ≠ "")
    (hName : w.getenv "DB_NAME" ≠ "") (hHost : w.getenv "DB_HOST" ≠ "")
    (hPort : w.getenv "DB_PORT" ≠ "") :
    getDatabaseConfig w basePath =
      { Type_ := "postgres",
        Host := w.getenv "DB_HOST",
        Port := w.getenv "DB_PORT",
        User := w.getenv "DB_USER",
        Password := w.getenv "DB_PASSWORD",
        Name := w.getenv "DB_NAME",
        Path := "" } := by
  simp [getDatabaseConfig, hUser, hPassword, hName, hHost, hPort]

/-- With one of the five variables empty the configuration is the `sqlite` one. -/
theorem getDatabaseConfig_not_all_set (w : World) (basePath : String)
    (hn : ¬ (w.getenv "DB_USER" ≠ "" ∧ w.getenv "DB_PASSWORD" ≠ "" ∧ w.getenv "DB_NAME" ≠ ""
      ∧ w.getenv "DB_HOST" ≠ "" ∧ w.getenv "DB_PORT" ≠ "")) :
    getDatabaseConfig w basePath = { Type_ := "sqlite", Path := Join [basePath, "dbdata"] } := by
  simp only [getDatabaseConfig, if_neg hn]

theorem not_all_set_of_some_empty (w : World)
    (h : w.getenv "DB_USER" = "" ∨ w.getenv "DB_PASSWORD" = "" ∨ w.getenv "DB_NAME" = ""
      ∨ w.getenv "DB_HOST" = "" ∨ w.getenv "DB_PORT" = "") :
    ¬ (w.getenv "DB_USER" ≠ "" ∧ w.getenv "DB_PASSWORD" ≠ "" ∧ w.getenv "DB_NAME" ≠ ""
      ∧ w.getenv "DB_HOST" ≠ "" ∧ w.getenv "DB_PORT" ≠ "") := by
  rintro ⟨h1, h2, h3, h4, h5⟩
  rcases h with h | h | h | h | h <;> contradiction

/-- C1: when `DB_USER`, `DB_PASSWORD`, `DB_NAME`, `DB_HOST` and `DB_PORT` are all
non-empty, `getDatabaseConfig` returns the `postgres` configuration whose
`User`, `Password`, `Name`, `Host` and `Port` are exactly the values of these
variables, for every base path. -/
theorem getDatabaseConfig_postgres (w : World) (basePath : String)
    (hUser : w.getenv "DB_USER" ≠ "") (hPassword : w.getenv "DB_PASSWORD" ≠ "")
    (hName : w.getenv "DB_NAME" ≠ "") (hHost : w.getenv "DB_HOST" ≠ "")
    (hPort : w.getenv "DB_PORT" ≠ "") :
    (getDatabaseConfig w basePath).Type_ = "postgres"
      ∧ (getDatabaseConfig w basePath).User = w.getenv "DB_USER"
      ∧ (getDatabaseConfig w basePath).Password = w.getenv "DB_PASSWORD"
      ∧ (getDatabaseConfig w basePath).Name = w.getenv "DB_NAME"
      ∧ (getDatabaseConfig w basePath).Host = w.getenv "DB_HOST"
      ∧ (getDatabaseConfig w basePath).Port = w.getenv "DB_PORT"
      ∧ (getDatabaseConfig w basePath).Path = "" := by
  rw [getDatabaseConfig_all_set w basePath hUser hPassword hName hHost hPort]
  exact ⟨rfl, rfl, rfl, rfl, rfl, rfl, rfl⟩

/-- C1 at the example environment of the specification. -/
theorem getDatabaseConfig_postgres_witness :
    (World.ok pgVars).getenv "DB_USER" ≠ "" ∧ (World.ok pgVars).getenv "DB_PASSWORD" ≠ ""
      ∧ (World.ok pgVars).getenv "DB_NAME" ≠ "" ∧ (World.ok pgVars).getenv "DB_HOST" ≠ ""
      ∧ (World.ok pgVars).getenv "DB_PORT" ≠ ""
      ∧ (getDatabaseConfig (World.ok pgVars) "/tmp/app").Type_ = "postgres"
      ∧ (getDatabaseConfig (World.ok pgVars) "/tmp/app").User = "a"
      ∧ (getDatabaseConfig (World.ok pgVars) "/tmp/app").Password = "b"
      ∧ (getDatabaseConfig (World.ok pgVars) "/tmp/app").Name = "c"
      ∧ (getDatabaseConfig (World.ok pgVars) "/tmp/app").Host = "localhost"
      ∧ (getDatabaseConfig (World.ok pgVars) "/tmp/app").Port = "5432"
      ∧ (getDatabaseConfig (World.ok pgVars) "/tmp/app").Path = "" :=
  ⟨by decide, by decide, by decide, by decide, by decide,
    getDatabaseConfig_postgres (World.ok pgVars) "/tmp/app" (by decide) (by decide) (by decide)
      (by decide) (by decide)⟩

/-! ### The three outcomes of `initializePostgres` -/

theorem initializePostgres_open_fail (w : World) (config : DatabaseConfig) (e : GoError)
    (h : w.sqlxOpen "postgres" (postgresDSN config) = some e) :
    initializePostgres w config =
      { db := none, err := some (Errorf "failed to open postgres connection: " e),
        calls := [.sqlxOpen "postgres" (postgresDSN config)] } := by
  simp only [initializePostgres, h]

theorem initializePostgres_ping_fail (w : World) (config : DatabaseConfig) (e : GoError)
    (h : w.sqlxOpen "postgres" (postgresDSN config) = none)
    (hp : w.ping { driverName := "postgres", dataSourceName := postgresDSN config,
                   maxOpen := 10, maxIdleCount := 5, maxLifetime := 1800000000000 } = some e) :
    initializePostgres w config =
      { db := none, err := some (Errorf "failed to ping postgres database: " e),
        calls := [.sqlxOpen "postgres" (postgresDSN config), .setMaxOpenConns 10,
                  .setMaxIdleConns 5, .setConnMaxLifetime 1800000000000,
                  .ping { driverName := "postgres", dataSourceName := postgresDSN config,
                          maxOpen := 10, maxIdleCount := 5, maxLifetime := 1800000000000 }] } := by
  simp only [initializePostgres, h, postgres_handle, hp]
  rfl

theorem initializePostgres_ok (w : World) (config : DatabaseConfig)
    (h : w.sqlxOpen "postgres" (postgresDSN config) = none)
    (hp : w.ping { driverName := "postgres", dataSourceName := postgresDSN config,
                   maxOpen := 10, maxIdleCount := 5, maxLifetime := 1800000000000 } = none) :
    initializePostgres w config =
      { db := some { driverName := "postgres", dataSourceName := postgresDSN config,
                     maxOpen := 10, maxIdleCount := 5, maxLifetime := 1800000000000 },
        err := none,
        calls := [.sqlxOpen "postgres" (postgresDSN config), .setMaxOpenConns 10,
                  .setMaxIdleConns 5, .setConnMaxLifetime 1800000000000,
                  .ping { driverName := "postgres", dataSourceName := postgresDSN config,
                          maxOpen := 10, maxIdleCount := 5, maxLifetime := 1800000000000 }] } := by
  simp only [initializePostgres, h, postgres_handle, hp]
  rfl

/-! ### The four outcomes of `initializeSQLite` -/

theorem initializeSQLite_mkdir_fail (w : World) (config : DatabaseConfig) (e : GoError)
    (h : w.mkdirAll config.Path 0o751 = some e) :
    initializeSQLite w config =
      { db := none, err := some (Errorf "could not create dbdata directory: " e),
        calls := [.mkdirAll config.Path 0o751] } := by
  simp only [initializeSQLite, h]

theorem initializeSQLite_open_fail (w : World) (config : DatabaseConfig) (e : GoError)
    (h : w.mkdirAll config.Path 0o751 = none)
    (ho : w.sqlxOpen "sqlite" (sqliteDSN config) = some e) :
    initializeSQLite w config =
      { db := none, err := some (Errorf "failed to open sqlite database: " e),
        calls := [.mkdirAll config.Path 0o751, .sqlxOpen "sqlite" (sqliteDSN config)] } := by
  simp only [initializeSQLite, h, ho]

theorem initializeSQLite_ping_fail (w : World) (config : DatabaseConfig) (e : GoError)
    (h : w.mkdirAll config.Path 0o751 = none)
    (ho : w.sqlxOpen "sqlite" (sqliteDSN config) = none)
    (hp : w.ping { driverName := "sqlite", dataSourceName := sqliteDSN config,
                   maxOpen := 1, maxIdleCount := 1, maxLifetime := 1800000000000 } = some e) :
    initializeSQLite w config =
      { db := none, err := some (Errorf "failed to ping sqlite database: " e),
        calls := [.mkdirAll config.Path 0o751, .sqlxOpen "sqlite" (sqliteDSN config),
                  .setMaxOpenConns 1, .setMaxIdleConns 1, .setConnMaxLifetime 1800000000000,
                  .ping { driverName := "sqlite", dataSourceName := sqliteDSN config,
                          maxOpen := 1, maxIdleCount := 1, maxLifetime := 1800000000000 }] } := by
  simp only [initializeSQLite, h, ho, sqlite_handle, hp]
  rfl

theorem initializeSQLite_ok (w : World) (config : DatabaseConfig)
    (h : w.mkdirAll config.Path 0o751 = none)
    (ho : w.sqlxOpen "sqlite" (sqliteDSN config) = none)
    (hp : w.ping { driverName := "sqlite", dataSourceName := sqliteDSN config,
                   maxOpen := 1, maxIdleCount := 1, maxLifetime := 1800000000000 } = none) :
    initializeSQLite w config =
      { db := some { driverName := "sqlite", dataSourceName := sqliteDSN config,
                     maxOpen := 1, maxIdleCount := 1, maxLifetime := 1800000000000 },
        err := none,
        calls := [.mkdirAll config.Path 0o751, .sqlxOpen "sqlite" (sqliteDSN config),
                  .setMaxOpenConns 1, .setMaxIdleConns 1, .setConnMaxLifetime 1800000000000,
                  .ping { driverName := "sqlite", dataSourceName := sqliteDSN config,
                          maxOpen := 1, maxIdleCount := 1, maxLifetime := 1800000000000 }] } := by
  simp only [initializeSQLite, h, ho, sqlite_handle, hp]
  rfl

/-- C2 (as stated) fails: with no variable set and the base path `/` the
configuration is `sqlite` but `Path` is `/dbdata`, not `"/" + "/dbdata"`. -/
theorem getDatabaseConfig_sqlite_path_counterexample :
    (World.ok []).getenv "DB_USER" = ""
      ∧ (getDatabaseConfig (World.ok []) "/").Type_ = "sqlite"
      ∧ (getDatabaseConfig (World.ok []) "/").Path = "/dbdata"
      ∧ (getDatabaseConfig (World.ok []) "/").Path ≠ "/" ++ "/dbdata" := by
  decide

/-- C2 (amended): when at least one of the five variables is empty,
`getDatabaseConfig` returns the `sqlite` configuration whose `Path` is
`filepath.Join(basePath, "dbdata")`: `dbdata` when `basePath` is empty or
cleans to `.`, `/dbdata` when it cleans to `/`, and
`filepath.Clean(basePath) + "/dbdata"` otherwise.  `Path` is
`basePath + "/dbdata"` exactly when `basePath` is already clean
(`filepath.Clean(basePath) = basePath`) and is neither `/` nor `.`. -/
theorem getDatabaseConfig_sqlite (w : World) (basePath : String)
    (h : w.getenv "DB_USER" = "" ∨ w.getenv "DB_PASSWORD" = "" ∨ w.getenv "DB_NAME" = ""
      ∨ w.getenv "DB_HOST" = "" ∨ w.getenv "DB_PORT" = "") :
    (getDatabaseConfig w basePath).Type_ = "sqlite"
      ∧ (getDatabaseConfig w basePath).Path = Join [basePath, "dbdata"]
      ∧ (getDatabaseConfig w basePath).Path =
          (if basePath = "" ∨ Clean basePath = "." then "dbdata"
           else if Clean basePath = "/" then "/dbdata"
           else Clean basePath ++ "/dbdata")
      ∧ ((getDatabaseConfig w basePath).Path = basePath ++ "/dbdata"
          ↔ (Clean basePath = basePath ∧ basePath ≠ "/" ∧ basePath ≠ ".")) := by
  rw [getDatabaseConfig_not_all_set w basePath (not_all_set_of_some_empty w h)]
  refine ⟨rfl, rfl, ?_, ?_⟩
  · have hj := Join_plain basePath "dbdata" plainElement_dbdata
    rw [String.append_assoc] at hj
    exact hj
  · have hj := Join_eq_append_iff basePath "dbdata" plainElement_dbdata
    rw [String.append_assoc] at hj
    exact hj

/-- C2 (amended) with only `DB_USER` and `DB_HOST` set and the base path `/tmp/app`. -/
theorem getDatabaseConfig_sqlite_witness :
    (World.ok [("DB_USER", "a"), ("DB_HOST", "localhost")]).getenv "DB_PASSWORD" = ""
      ∧ (getDatabaseConfig (World.ok [("DB_USER", "a"), ("DB_HOST", "localhost")])
            "/tmp/app").Type_ = "sqlite"
      ∧ (getDatabaseConfig (World.ok [("DB_USER", "a"), ("DB_HOST", "localhost")])
            "/tmp/app").Path = "/tmp/app" ++ "/dbdata" :=
  have h := getDatabaseConfig_sqlite (World.ok [("DB_USER", "a"), ("DB_HOST", "localhost")])
    "/tmp/app" (Or.inr (Or.inl (by decide)))
  ⟨by decide, h.1, h.2.2.2.mpr (by decide)⟩

/-- C3: the configuration returned by `getDatabaseConfig` has exactly one of
its two field groups populated: the `postgres` group (`Type = "postgres"`,
`Host`, `Port`, `User`, `Password`, `Name` non-empty, `Path` empty) exactly
when all five variables are non-empty, and the `sqlite` group
(`Type = "sqlite"`, `Path` non-empty, the five others empty) exactly when
one of them is empty. -/
theorem getDatabaseConfig_groups (w : World) (basePath : String) :
    (((getDatabaseConfig w basePath).Type_ = "postgres"
        ∧ (getDatabaseConfig w basePath).Host ≠ "" ∧ (getDatabaseConfig w basePath).Port ≠ ""
        ∧ (getDatabaseConfig w basePath).User ≠ "" ∧ (getDatabaseConfig w basePath).Password ≠ ""
        ∧ (getDatabaseConfig w basePath).Name ≠ "" ∧ (getDatabaseConfig w basePath).Path = "")
      ↔ (w.getenv "DB_USER" ≠ "" ∧ w.getenv "DB_PASSWORD" ≠ "" ∧ w.getenv "DB_NAME" ≠ ""
          ∧ w.getenv "DB_HOST" ≠ "" ∧ w.getenv "DB_PORT" ≠ ""))
    ∧ (((getDatabaseConfig w basePath).Type_ = "sqlite"
        ∧ (getDatabaseConfig w basePath).Path ≠ ""
        ∧ (getDatabaseConfig w basePath).Host = "" ∧ (getDatabaseConfig w basePath).Port = ""
        ∧ (getDatabaseConfig w basePath).User = "" ∧ (getDatabaseConfig w basePath).Password = ""
        ∧ (getDatabaseConfig w basePath).Name = "")
      ↔ ¬ (w.getenv "DB_USER" ≠ "" ∧ w.getenv "DB_PASSWORD" ≠ "" ∧ w.getenv "DB_NAME" ≠ ""
          ∧ w.getenv "DB_HOST" ≠ "" ∧ w.getenv "DB_PORT" ≠ ""))
    ∧ ((getDatabaseConfig w basePath).Type_ = "postgres"
      ↔ (w.getenv "DB_USER" ≠ "" ∧ w.getenv "DB_PASSWORD" ≠ "" ∧ w.getenv "DB_NAME" ≠ ""
          ∧ w.getenv "DB_HOST" ≠ "" ∧ w.getenv "DB_PORT" ≠ "")) := by
  by_cases hall : w.getenv "DB_USER" ≠ "" ∧ w.getenv "DB_PASSWORD" ≠ "" ∧ w.getenv "DB_NAME" ≠ ""
      ∧ w.getenv "DB_HOST" ≠ "" ∧ w.getenv "DB_PORT" ≠ ""
  · rw [getDatabaseConfig_all_set w basePath hall.1 hall.2.1 hall.2.2.1
      hall.2.2.2.1 hall.2.2.2.2]
    obtain ⟨h1, h2, h3, h4, h5⟩ := hall
    refine ⟨?_, ?_, ?_⟩
    · exact ⟨fun _ => ⟨h1, h2, h3, h4, h5⟩, fun _ => ⟨rfl, h4, h5, h1, h2, h3, rfl⟩⟩
    · constructor
      · rintro ⟨ht, _⟩
        exact absurd ht (show ¬ ("postgres" : String) = "sqlite" by decide)
      · intro hn
        exact absurd ⟨h1, h2, h3, h4, h5⟩ hn
    · exact ⟨fun _ => ⟨h1, h2, h3, h4, h5⟩, fun _ => rfl⟩
  · rw [getDatabaseConfig_not_all_set w basePath hall]
    refine ⟨?_, ?_, ?_⟩
    · constructor
      · rintro ⟨ht, _⟩
        exact absurd ht (show ¬ ("sqlite" : String) = "postgres" by decide)
      · intro ha
        exact absurd ha hall
    · exact ⟨fun _ => hall, fun _ => ⟨rfl, Join_dbdata_ne_empty basePath, rfl, rfl, rfl, rfl, rfl⟩⟩
    · constructor
      · intro ht
        exact absurd ht (show ¬ ("sqlite" : String) = "postgres" by decide)
      · intro ha
        exact absurd ha hall

/-- Every call of a run of `initializePostgres` is `sqlx.Open` with the driver
`postgres` and the data source `postgresDSN config`, a pool setter, or `Ping`. -/
theorem initializePostgres_calls (w : World) (config : DatabaseConfig) :
    ∀ c ∈ (initializePostgres w config).calls,
      (∀ path perm, c ≠ .mkdirAll path perm)
        ∧ (∀ d s, c = .sqlxOpen d s → d = "postgres" ∧ s = postgresDSN config) := by
  cases ho : w.sqlxOpen "postgres" (postgresDSN config) with
  | some e =>
    rw [initializePostgres_open_fail w config e ho]
    simp
  | none =>
    cases hp : w.ping (DB.mk "postgres" (postgresDSN config) 10 5 1800000000000) with
    | some e =>
      rw [initializePostgres_ping_fail w config e ho hp]
      simp
    | none =>
      rw [initializePostgres_ok w config ho hp]
      simp

/-- Every call of a run of `initializeSQLite` is `os.MkdirAll` on `config.Path`
with mode `0751`, `sqlx.Open` with the driver `sqlite` and the data source
`sqliteDSN config`, a pool setter, or `Ping`. -/
theorem initializeSQLite_calls (w : World) (config : DatabaseConfig) :
    ∀ c ∈ (initializeSQLite w config).calls,
      (∀ path perm, c = .mkdirAll path perm → path = config.Path ∧ perm = 0o751)
        ∧ (∀ d s, c = .sqlxOpen d s → d = "sqlite" ∧ s = sqliteDSN config) := by
  cases hm : w.mkdirAll config.Path 0o751 with
  | some e =>
    rw [initializeSQLite_mkdir_fail w config e hm]
    simp
  | none =>
    cases ho : w.sqlxOpen "sqlite" (sqliteDSN config) with
    | some e =>
      rw [initializeSQLite_open_fail w config e hm ho]
      simp
    | none =>
      cases hp : w.ping (DB.mk "sqlite" (sqliteDSN config) 1 1 1800000000000) with
      | some e =>
        rw [initializeSQLite_ping_fail w config e hm ho hp]
        simp
      | none =>
        rw [initializeSQLite_ok w config hm ho hp]
        simp

/-- C4: `InitializeDatabase(basePath)` is the run of `initializePostgres` on
`getDatabaseConfig(basePath)` when that configuration has `Type = "postgres"`,
and the run of `initializeSQLite` on it otherwise: the same handle, the same
error and the same calls.  In the first case nothing of the SQLite opener is
called (no `MkdirAll`, no `sqlx.Open` with another driver), in the second no
`sqlx.Open` with the driver `postgres`. -/
theorem InitializeDatabase_dispatch (w : World) (basePath : String) :
    ((getDatabaseConfig w basePath).Type_ = "postgres" →
        InitializeDatabase w basePath = initializePostgres w (getDatabaseConfig w basePath)
        ∧ ∀ c ∈ (InitializeDatabase w basePath).calls,
            (∀ path perm, c ≠ .mkdirAll path perm) ∧ (∀ d s, c = .sqlxOpen d s → d = "postgres"))
    ∧ ((getDatabaseConfig w basePath).Type_ ≠ "postgres" →
        InitializeDatabase w basePath = initializeSQLite w (getDatabaseConfig w basePath)
        ∧ ∀ c ∈ (InitializeDatabase w basePath).calls,
            ∀ d s, c = .sqlxOpen d s → d = "sqlite") := by
  constructor
  · intro ht
    have he : InitializeDatabase w basePath
        = initializePostgres w (getDatabaseConfig w basePath) := by
      simp only [InitializeDatabase, if_pos ht]
    refine ⟨he, ?_⟩
    rw [he]
    intro c hc
    have := initializePostgres_calls w _ c hc
    exact ⟨this.1, fun d s h => (this.2 d s h).1⟩
  · intro ht
    have he : InitializeDatabase w basePath
        = initializeSQLite w (getDatabaseConfig w basePath) := by
      simp only [InitializeDatabase, if_neg ht]
    refine ⟨he, ?_⟩
    rw [he]
    intro c hc d s h
    exact ((initializeSQLite_calls w _ c hc).2 d s h).1

/-- The first call of `initializePostgres` is `sqlx.Open("postgres", dsn)`. -/
theorem initializePostgres_first_call (w : World) (config : DatabaseConfig) :
    (initializePostgres w config).calls.head?
      = some (.sqlxOpen "postgres" (postgresDSN config)) := by
  cases ho : w.sqlxOpen "postgres" (postgresDSN config) with
  | some e =>
    rw [initializePostgres_open_fail w config e ho]
    rfl
  | none =>
    cases hp : w.ping (DB.mk "postgres" (postgresDSN config) 10 5 1800000000000) with
    | some e =>
      rw [initializePostgres_ping_fail w config e ho hp]
      rfl
    | none =>
      rw [initializePostgres_ok w config ho hp]
      rfl

/-- C5: the first call of `initializePostgres` is `sqlx.Open` with the driver
name `postgres` and the connection string
`user=<User> password=<Password> dbname=<Name> host=<Host> port=<Port> sslmode=disable connect_timeout=10`,
and no other `sqlx.Open` is made. -/
theorem initializePostgres_dsn (w : World) (config : DatabaseConfig) :
    (initializePostgres w config).calls.head? =
        some (.sqlxOpen "postgres"
          ("user=" ++ config.User ++ " password=" ++ config.Password ++ " dbname=" ++ config.Name
            ++ " host=" ++ config.Host ++ " port=" ++ config.Port
            ++ " sslmode=disable connect_timeout=10"))
      ∧ ∀ c ∈ (initializePostgres w config).calls, ∀ d s, c = .sqlxOpen d s →
          d = "postgres"
          ∧ s = "user=" ++ config.User ++ " password=" ++ config.Password ++ " dbname="
              ++ config.Name ++ " host=" ++ config.Host ++ " port=" ++ config.Port
              ++ " sslmode=disable connect_timeout=10" :=
  ⟨initializePostgres_first_call w config,
    fun c hc d s h => (initializePostgres_calls w config c hc).2 d s h⟩

/-- C6: `initializePostgres` returns a non-nil handle with a nil error exactly
when `sqlx.Open` and `Ping` both succeed.  When `sqlx.Open` fails it returns a
nil handle and an error with the message `failed to open postgres connection: `
followed by the message of the cause, which it wraps, and `Ping` is not
called.  When `sqlx.Open` succeeds and `Ping` fails it returns a nil handle
and an error with the message `failed to ping postgres database: ` followed
by the message of the cause, which it wraps. -/
theorem initializePostgres_outcomes (w : World) (config : DatabaseConfig) :
    (((initializePostgres w config).db ≠ none ∧ (initializePostgres w config).err = none)
      ↔ (w.sqlxOpen "postgres" (postgresDSN config) = none
          ∧ w.ping { driverName := "postgres", dataSourceName := postgresDSN config,
                     maxOpen := 10, maxIdleCount := 5, maxLifetime := 1800000000000 } = none))
    ∧ ((initializePostgres w config).err = none → (initializePostgres w config).db ≠ none)
    ∧ (∀ e, w.sqlxOpen "postgres" (postgresDSN config) = some e →
        (initializePostgres w config).db = none
        ∧ (∃ err, (initializePostgres w config).err = some err
            ∧ err.Error = "failed to open postgres connection: " ++ e.Error
            ∧ err.Unwrap = some e)
        ∧ ∀ h, Call.ping h ∉ (initializePostgres w config).calls)
    ∧ (∀ e, w.sqlxOpen "postgres" (postgresDSN config) = none →
        w.ping { driverName := "postgres", dataSourceName := postgresDSN config,
                 maxOpen := 10, maxIdleCount := 5, maxLifetime := 1800000000000 } = some e →
        (initializePostgres w config).db = none
        ∧ ∃ err, (initializePostgres w config).err = some err
            ∧ err.Error = "failed to ping postgres database: " ++ e.Error
            ∧ err.Unwrap = some e) := by
  cases ho : w.sqlxOpen "postgres" (postgresDSN config) with
  | some e =>
    rw [initializePostgres_open_fail w config e ho]
    simp [Errorf, GoError.Error, GoError.Unwrap]
  | none =>
    cases hp : w.ping (DB.mk "postgres" (postgresDSN config) 10 5 1800000000000) with
    | some e =>
      rw [initializePostgres_ping_fail w config e ho hp]
      simp [Errorf, GoError.Error, GoError.Unwrap]
    | none =>
      rw [initializePostgres_ok w config ho hp]
      simp

/-- C7: `initializeSQLite` fails at the first failing stage and names it.  If
`os.MkdirAll(config.Path, 0751)` fails it returns a nil handle and an error
with the message `could not create dbdata directory: ` followed by the
message of the cause, and `sqlx.Open` is not called; if then `sqlx.Open`
fails the message starts `failed to open sqlite database: `; if then `Ping`
fails it starts `failed to ping sqlite database: `; each error wraps its
cause.  It returns a non-nil handle with a nil error exactly when all three
stages succeed. -/
theorem initializeSQLite_outcomes (w : World) (config : DatabaseConfig) :
    (((initializeSQLite w config).db ≠ none ∧ (initializeSQLite w config).err = none)
      ↔ (w.mkdirAll config.Path 0o751 = none
          ∧ w.sqlxOpen "sqlite" (sqliteDSN config) = none
          ∧ w.ping { driverName := "sqlite", dataSourceName := sqliteDSN config,
                     maxOpen := 1, maxIdleCount := 1, maxLifetime := 1800000000000 } = none))
    ∧ ((initializeSQLite w config).err = none → (initializeSQLite w config).db ≠ none)
    ∧ (∀ e, w.mkdirAll config.Path 0o751 = some e →
        (initializeSQLite w config).db = none
        ∧ (∃ err, (initializeSQLite w config).err = some err
            ∧ err.Error = "could not create dbdata directory: " ++ e.Error
            ∧ err.Unwrap = some e)
        ∧ (∀ d s, Call.sqlxOpen d s ∉ (initializeSQLite w config).calls)
        ∧ ∀ h, Call.ping h ∉ (initializeSQLite w config).calls)
    ∧ (∀ e, w.mkdirAll config.Path 0o751 = none →
        w.sqlxOpen "sqlite" (sqliteDSN config) = some e →
        (initializeSQLite w config).db = none
        ∧ (∃ err, (initializeSQLite w config).err = some err
            ∧ err.Error = "failed to open sqlite database: " ++ e.Error
            ∧ err.Unwrap = some e)
        ∧ ∀ h, Call.ping h ∉ (initializeSQLite w config).calls)
    ∧ (∀ e, w.mkdirAll config.Path 0o751 = none →
        w.sqlxOpen "sqlite" (sqliteDSN config) = none →
        w.ping { driverName := "sqlite", dataSourceName := sqliteDSN config,
                 maxOpen := 1, maxIdleCount := 1, maxLifetime := 1800000000000 } = some e →
        (initializeSQLite w config).db = none
        ∧ ∃ err, (initializeSQLite w config).err = some err
            ∧ err.Error = "failed to ping sqlite database: " ++ e.Error
            ∧ err.Unwrap = some e) := by
  cases hm : w.mkdirAll config.Path 0o751 with
  | some e =>
    rw [initializeSQLite_mkdir_fail w config e hm]
    simp [Errorf, GoError.Error, GoError.Unwrap]
  | none =>
    cases ho : w.sqlxOpen "sqlite" (sqliteDSN config) with
    | some e =>
      rw [initializeSQLite_open_fail w config e hm ho]
      simp [Errorf, GoError.Error, GoError.Unwrap]
    | none =>
      cases hp : w.ping (DB.mk "sqlite" (sqliteDSN config) 1 1 1800000000000) with
      | some e =>
        rw [initializeSQLite_ping_fail w config e hm ho hp]
        simp [Errorf, GoError.Error, GoError.Unwrap]
      | none =>
        rw [initializeSQLite_ok w config hm ho hp]
        simp

/-- The first call of `initializeSQLite` is `os.MkdirAll(config.Path, 0751)`;
when it succeeds the second call is `sqlx.Open("sqlite", sqliteDSN config)`. -/
theorem initializeSQLite_first_calls (w : World) (config : DatabaseConfig) :
    (initializeSQLite w config).calls.head? = some (.mkdirAll config.Path 0o751)
      ∧ (w.mkdirAll config.Path 0o751 = none →
          (initializeSQLite w config).calls.tail.head?
            = some (.sqlxOpen "sqlite" (sqliteDSN config))) := by
  cases hm : w.mkdirAll config.Path 0o751 with
  | some e =>
    rw [initializeSQLite_mkdir_fail w config e hm]
    simp
  | none =>
    cases ho : w.sqlxOpen "sqlite" (sqliteDSN config) with
    | some e =>
      rw [initializeSQLite_open_fail w config e hm ho]
      simp
    | none =>
      cases hp : w.ping (DB.mk "sqlite" (sqliteDSN config) 1 1 1800000000000) with
      | some e =>
        rw [initializeSQLite_ping_fail w config e hm ho hp]
        simp
      | none =>
        rw [initializeSQLite_ok w config hm ho hp]
        simp

/-- C8 (as stated) fails: with no variable set and the empty base path the
directory created is `dbdata` and the data source opened is
`dbdata/users.db?...`, relative paths, not `"" + "/dbdata"` and
`"" + "/dbdata/users.db" + "?..."`. -/
theorem InitializeDatabase_sqlite_layout_counterexample :
    (World.ok []).getenv "DB_USER" = ""
      ∧ (InitializeDatabase (World.ok []) "").calls.take 2 =
          [.mkdirAll "dbdata" 0o751,
           .sqlxOpen "sqlite"
             "dbdata/users.db?_pragma=foreign_keys(1)&_busy_timeout=3000&_journal_mode=WAL"]
      ∧ Call.mkdirAll ("" ++ "/dbdata") 0o751 ∉ (InitializeDatabase (World.ok []) "").calls
      ∧ Call.sqlxOpen "sqlite" ("" ++ "/dbdata/users.db"
            ++ "?_pragma=foreign_keys(1)&_busy_timeout=3000&_journal_mode=WAL")
          ∉ (InitializeDatabase (World.ok []) "").calls := by
  decide

/-- C8 (amended): in SQLite mode (one of the five variables empty) the first
call of `InitializeDatabase` is `os.MkdirAll(D, 0751)` with
`D = filepath.Join(basePath, "dbdata")`, and that is its only `os.MkdirAll`
call; when it succeeds the next call, and the only `sqlx.Open`, has the driver
`sqlite` and as data source the string `D + "/users.db"` immediately followed
by `?_pragma=foreign_keys(1)&_busy_timeout=3000&_journal_mode=WAL`.  `D` is
`basePath + "/dbdata"` exactly when `basePath` is already clean and is
neither `/` nor `.`. -/
theorem InitializeDatabase_sqlite_layout (w : World) (basePath : String)
    (h : w.getenv "DB_USER" = "" ∨ w.getenv "DB_PASSWORD" = "" ∨ w.getenv "DB_NAME" = ""
      ∨ w.getenv "DB_HOST" = "" ∨ w.getenv "DB_PORT" = "") :
    (InitializeDatabase w basePath).calls.head?
        = some (.mkdirAll (Join [basePath, "dbdata"]) 0o751)
      ∧ (w.mkdirAll (Join [basePath, "dbdata"]) 0o751 = none →
          (InitializeDatabase w basePath).calls.tail.head?
            = some (.sqlxOpen "sqlite" (Join [basePath, "dbdata"] ++ "/users.db"
                ++ "?_pragma=foreign_keys(1)&_busy_timeout=3000&_journal_mode=WAL")))
      ∧ (∀ c ∈ (InitializeDatabase w basePath).calls,
          (∀ path perm, c = .mkdirAll path perm →
            path = Join [basePath, "dbdata"] ∧ perm = 0o751)
          ∧ (∀ d s, c = .sqlxOpen d s →
            d = "sqlite"
            ∧ s = Join [basePath, "dbdata"] ++ "/users.db"
                ++ "?_pragma=foreign_keys(1)&_busy_timeout=3000&_journal_mode=WAL"))
      ∧ (Join [basePath, "dbdata"] = basePath ++ "/dbdata"
          ↔ (Clean basePath = basePath ∧ basePath ≠ "/" ∧ basePath ≠ ".")) := by
  have hcfg := getDatabaseConfig_not_all_set w basePath (not_all_set_of_some_empty w h)
  have hrun : InitializeDatabase w basePath
      = initializeSQLite w { Type_ := "sqlite", Path := Join [basePath, "dbdata"] } := by
    simp only [InitializeDatabase, hcfg]
    exact if_neg (by decide)
  have hdsn : sqliteDSN { Type_ := "sqlite", Path := Join [basePath, "dbdata"] }
      = Join [basePath, "dbdata"] ++ "/users.db"
        ++ "?_pragma=foreign_keys(1)&_busy_timeout=3000&_journal_mode=WAL" := by
    simp only [sqliteDSN, Join_users_db]
  have hfirst := initializeSQLite_first_calls w
    { Type_ := "sqlite", Path := Join [basePath, "dbdata"] }
  have hcalls := initializeSQLite_calls w
    { Type_ := "sqlite", Path := Join [basePath, "dbdata"] }
  rw [hdsn] at hfirst hcalls
  rw [hrun]
  refine ⟨hfirst.1, hfirst.2, hcalls, ?_⟩
  have hj := Join_eq_append_iff basePath "dbdata" plainElement_dbdata
  rw [String.append_assoc] at hj
  exact hj

/-- C8 (amended) with no variable set and the base path `/tmp/app`. -/
theorem InitializeDatabase_sqlite_layout_witness :
    (World.ok []).getenv "DB_USER" = ""
      ∧ (InitializeDatabase (World.ok []) "/tmp/app").calls.head?
          = some (.mkdirAll (Join ["/tmp/app", "dbdata"]) 0o751)
      ∧ (InitializeDatabase (World.ok []) "/tmp/app").calls.tail.head?
          = some (.sqlxOpen "sqlite" (Join ["/tmp/app", "dbdata"] ++ "/users.db"
              ++ "?_pragma=foreign_keys(1)&_busy_timeout=3000&_journal_mode=WAL"))
      ∧ Join ["/tmp/app", "dbdata"] = "/tmp/app" ++ "/dbdata" :=
  have h := InitializeDatabase_sqlite_layout (World.ok []) "/tmp/app" (Or.inl (by decide))
  ⟨by decide, h.1, h.2.1 (by decide), h.2.2.2.mpr (by decide)⟩

/-- C9: once `sqlx.Open` has succeeded, `initializePostgres` calls
`SetMaxOpenConns(10)`, `SetMaxIdleConns(5)` and `SetConnMaxLifetime(30 * time.Minute)`
and only then `Ping`, on the handle that already has max open connections 10,
max idle connections 5 and max lifetime 30 minutes, and when `Ping` succeeds it
returns that handle; once `os.MkdirAll` and `sqlx.Open` have succeeded,
`initializeSQLite` does the same with 1, 1 and 30 minutes.  So every handle
either of them returns has these limits. -/
theorem pool_limits (w : World) (config : DatabaseConfig) :
    (w.sqlxOpen "postgres" (postgresDSN config) = none →
        (initializePostgres w config).calls =
          [.sqlxOpen "postgres" (postgresDSN config), .setMaxOpenConns 10, .setMaxIdleConns 5,
           .setConnMaxLifetime (30 * Minute),
           .ping (DB.mk "postgres" (postgresDSN config) 10 5 (30 * Minute))]
        ∧ (w.ping (DB.mk "postgres" (postgresDSN config) 10 5 (30 * Minute)) = none →
            (initializePostgres w config).db
              = some (DB.mk "postgres" (postgresDSN config) 10 5 (30 * Minute))
            ∧ (initializePostgres w config).err = none))
    ∧ (∀ db, (initializePostgres w config).db = some db →
        db.maxOpen = 10 ∧ db.maxIdleCount = 5 ∧ db.maxIdleConnsLocked = 5
        ∧ db.maxLifetime = 30 * Minute ∧ db.maxLifetime = 30 * 60 * 1000000000)
    ∧ (w.mkdirAll config.Path 0o751 = none → w.sqlxOpen "sqlite" (sqliteDSN config) = none →
        (initializeSQLite w config).calls =
          [.mkdirAll config.Path 0o751, .sqlxOpen "sqlite" (sqliteDSN config),
           .setMaxOpenConns 1, .setMaxIdleConns 1, .setConnMaxLifetime (30 * Minute),
           .ping (DB.mk "sqlite" (sqliteDSN config) 1 1 (30 * Minute))]
        ∧ (w.ping (DB.mk "sqlite" (sqliteDSN config) 1 1 (30 * Minute)) = none →
            (initializeSQLite w config).db
              = some (DB.mk "sqlite" (sqliteDSN config) 1 1 (30 * Minute))
            ∧ (initializeSQLite w config).err = none))
    ∧ (∀ db, (initializeSQLite w config).db = some db →
        db.maxOpen = 1 ∧ db.maxIdleCount = 1 ∧ db.maxIdleConnsLocked = 1
        ∧ db.maxLifetime = 30 * Minute ∧ db.maxLifetime = 30 * 60 * 1000000000) := by
  have hmin : (30 * Minute : Int) = 1800000000000 := by decide
  rw [hmin]
  refine ⟨?_, ?_, ?_, ?_⟩
  · intro ho
    constructor
    · cases hp : w.ping (DB.mk "postgres" (postgresDSN config) 10 5 1800000000000) with
      | some e => rw [initializePostgres_ping_fail w config e ho hp]
      | none => rw [initializePostgres_ok w config ho hp]
    · intro hp
      rw [initializePostgres_ok w config ho hp]
      exact ⟨rfl, rfl⟩
  · intro db hdb
    cases ho : w.sqlxOpen "postgres" (postgresDSN config) with
    | some e =>
      rw [initializePostgres_open_fail w config e ho] at hdb
      simp at hdb
    | none =>
      cases hp : w.ping (DB.mk "postgres" (postgresDSN config) 10 5 1800000000000) with
      | some e =>
        rw [initializePostgres_ping_fail w config e ho hp] at hdb
        simp at hdb
      | none =>
        rw [initializePostgres_ok w config ho hp] at hdb
        simp only [Option.some.injEq] at hdb
        subst hdb
        exact ⟨rfl, rfl, rfl, rfl, rfl⟩
  · intro hm ho
    constructor
    · cases hp : w.ping (DB.mk "sqlite" (sqliteDSN config) 1 1 1800000000000) with
      | some e => rw [initializeSQLite_ping_fail w config e hm ho hp]
      | none => rw [initializeSQLite_ok w config hm ho hp]
    · intro hp
      rw [initializeSQLite_ok w config hm ho hp]
      exact ⟨rfl, rfl⟩
  · intro db hdb
    cases hm : w.mkdirAll config.Path 0o751 with
    | some e =>
      rw [initializeSQLite_mkdir_fail w config e hm] at hdb
      simp at hdb
    | none =>
      cases ho : w.sqlxOpen "sqlite" (sqliteDSN config) with
      | some e =>
        rw [initializeSQLite_open_fail w config e hm ho] at hdb
        simp at hdb
      | none =>
        cases hp : w.ping (DB.mk "sqlite" (sqliteDSN config) 1 1 1800000000000) with
        | some e =>
          rw [initializeSQLite_ping_fail w config e hm ho hp] at hdb
          simp at hdb
        | none =>
          rw [initializeSQLite_ok w config hm ho hp] at hdb
          simp only [Option.some.injEq] at hdb
          subst hdb
          exact ⟨rfl, rfl, rfl, rfl, rfl⟩

/-- C9 in a world where every call succeeds: both openers return a handle, and
it has the limits. -/
theorem pool_limits_witness :
    (World.ok pgVars).sqlxOpen "postgres" (postgresDSN configPlain) = none
      ∧ (World.ok pgVars).ping
          (DB.mk "postgres" (postgresDSN configPlain) 10 5 (30 * Minute)) = none
      ∧ (initializePostgres (World.ok pgVars) configPlain).db
          = some (DB.mk "postgres" (postgresDSN configPlain) 10 5 (30 * Minute))
      ∧ (initializeSQLite (World.ok []) (getDatabaseConfig (World.ok []) "/tmp/app")).db
          = some (DB.mk "sqlite"
              (sqliteDSN (getDatabaseConfig (World.ok []) "/tmp/app")) 1 1 (30 * Minute)) :=
  ⟨rfl, rfl,
    ((pool_limits (World.ok pgVars) configPlain).1 rfl).2 rfl |>.1,
    ((pool_limits (World.ok []) (getDatabaseConfig (World.ok []) "/tmp/app")).2.2.1
      rfl rfl).2 rfl |>.1⟩

/-- C10: the connection string is built without quoting, so the five values
do not determine it: the configurations with `User = "a password=b"`,
`Password = "c"` and with `User = "a"`, `Password = "b password=c"` (same
`Name`, `Host`, `Port`), both returned by `getDatabaseConfig` for suitable
environments, make `initializePostgres` open the same connection string.  A
value with a space followed by `key=value` text changes the parameters the
driver reads from the string: with `Password = "b user=admin"` the driver
reads the user `admin` although `User` is `a` (a parameter is overridden), and
with `Port = "5432 application_name=x"` it reads a parameter
`application_name` that a configuration without white space does not give (a
parameter is introduced). -/
theorem postgresDSN_not_injective :
    getDatabaseConfig (World.ok [("DB_USER", "a password=b"), ("DB_PASSWORD", "c"),
        ("DB_NAME", "n"), ("DB_HOST", "h"), ("DB_PORT", "5432")]) "/tmp/app" = configUserInjected
    ∧ getDatabaseConfig (World.ok [("DB_USER", "a"), ("DB_PASSWORD", "b password=c"),
        ("DB_NAME", "n"), ("DB_HOST", "h"), ("DB_PORT", "5432")]) "/tmp/app" = configPasswordInjected
    ∧ configUserInjected.User ≠ configPasswordInjected.User
    ∧ configUserInjected.Password ≠ configPasswordInjected.Password
    ∧ configUserInjected.Name = configPasswordInjected.Name
    ∧ configUserInjected.Host = configPasswordInjected.Host
    ∧ configUserInjected.Port = configPasswordInjected.Port
    ∧ (∀ w : World, (initializePostgres w configUserInjected).calls.head? =
        some (.sqlxOpen "postgres"
          "user=a password=b password=c dbname=n host=h port=5432 sslmode=disable connect_timeout=10"))
    ∧ (∀ w : World, (initializePostgres w configPasswordInjected).calls.head? =
        some (.sqlxOpen "postgres"
          "user=a password=b password=c dbname=n host=h port=5432 sslmode=disable connect_timeout=10"))
    ∧ ¬ Function.Injective
        (fun f : String × String × String × String × String =>
          postgresDSN { Type_ := "postgres", User := f.1, Password := f.2.1, Name := f.2.2.1,
                        Host := f.2.2.2.1, Port := f.2.2.2.2 })
    ∧ parseOpts
        "user=a password=b password=c dbname=n host=h port=5432 sslmode=disable connect_timeout=10"
        []
      = ([("user", "a"), ("password", "c"), ("dbname", "n"), ("host", "h"), ("port", "5432"),
          ("sslmode", "disable"), ("connect_timeout", "10")], none)
    ∧ getDatabaseConfig (World.ok [("DB_USER", "a"), ("DB_PASSWORD", "b user=admin"),
        ("DB_NAME", "n"), ("DB_HOST", "h"), ("DB_PORT", "5432")]) "/tmp/app" = configOverride
    ∧ (∀ w : World, (initializePostgres w configOverride).calls.head? =
        some (.sqlxOpen "postgres"
          "user=a password=b user=admin dbname=n host=h port=5432 sslmode=disable connect_timeout=10"))
    ∧ configOverride.User = "a"
    ∧ parseOpts
        "user=a password=b user=admin dbname=n host=h port=5432 sslmode=disable connect_timeout=10"
        []
      = ([("user", "admin"), ("password", "b"), ("dbname", "n"), ("host", "h"),
          ("port", "5432"), ("sslmode", "disable"), ("connect_timeout", "10")], none)
    ∧ getDatabaseConfig (World.ok [("DB_USER", "a"), ("DB_PASSWORD", "b"),
        ("DB_NAME", "n"), ("DB_HOST", "h"), ("DB_PORT", "5432 application_name=x")]) "/tmp/app"
      = configIntroduce
    ∧ (∀ w : World, (initializePostgres w configIntroduce).calls.head? =
        some (.sqlxOpen "postgres"
          "user=a password=b dbname=n host=h port=5432 application_name=x sslmode=disable connect_timeout=10"))
    ∧ parseOpts
        "user=a password=b dbname=n host=h port=5432 application_name=x sslmode=disable connect_timeout=10"
        []
      = ([("user", "a"), ("password", "b"), ("dbname", "n"), ("host", "h"), ("port", "5432"),
          ("application_name", "x"), ("sslmode", "disable"), ("connect_timeout", "10")], none)
    ∧ parseOpts (postgresDSN configPlain) []
      = ([("user", "a"), ("password", "b"), ("dbname", "n"), ("host", "h"), ("port", "5432"),
          ("sslmode", "disable"), ("connect_timeout", "10")], none) := by
  have first : ∀ (w : World) (config : DatabaseConfig) (dsn : String),
      postgresDSN config = dsn →
      (initializePostgres w config).calls.head? = some (.sqlxOpen "postgres" dsn) := by
    intro w config dsn h
    rw [initializePostgres_first_call w config, h]
  refine ⟨by decide, by decide, by decide, by decide, by decide, by decide, by decide,
    fun w => first w _ _ (by decide), fun w => first w _ _ (by decide), ?_, by decide,
    by decide, fun w => first w _ _ (by decide), by decide, by decide,
    by decide, fun w => first w _ _ (by decide), by decide, by decide⟩
  intro hinj
  have h := @hinj ("a password=b", "c", "n", "h", "5432") ("a", "b password=c", "n", "h", "5432")
    (by decide)
  exact absurd h (by decide)

end Wuzapi
